import Mathlib

/-!
Verification development for the music-tools MCP server
(src/mcp/music-tools/src/server.ts).

The TypeScript source is shallowly embedded: pure string/number helpers
become Lean functions over `List Char` / `ℚ`; JSON values parsed by
`JSON.parse` are represented by an inductive `Json` type (the body of an
upstream HTTP response is carried in already-parsed form, `Option Json`,
where `none` models a parse failure); network calls are driven by oracle
functions supplied as arguments, and every outgoing request is recorded in
a trace so that claims about "how many requests were issued" are provable.
JavaScript `\s` is modelled by its ASCII members plus NBSP (the claims
never exercise the rarer Unicode space code points), `toLowerCase` by
ASCII lowering, and JS number printing by a decimal renderer whose exact
digits the claims never depend on (only its character set matters).
-/

namespace MusicTools

/-! ## Character classes and basic string helpers -/

def isJsSpace (c : Char) : Bool :=
  c = ' ' || c = '\t' || c = '\n' || c = '\r' ||
  c = Char.ofNat 11 || c = Char.ofNat 12 || c = Char.ofNat 160

def isWordChar (c : Char) : Bool :=
  ('a' ≤ c && c ≤ 'z') || ('A' ≤ c && c ≤ 'Z') || ('0' ≤ c && c ≤ '9') || c = '_'

def lowerChar (c : Char) : Char :=
  if 'A' ≤ c && c ≤ 'Z' then Char.ofNat (c.toNat + 32) else c

def lowerL (l : List Char) : List Char := l.map lowerChar

/-- Drop of a leading run: auxiliary length bound used for termination. -/
theorem length_dropWhile_le (p : Char → Bool) (l : List Char) :
    (l.dropWhile p).length ≤ l.length := by
  induction l with
  | nil => simp [List.dropWhile]
  | cons c t ih =>
      by_cases h : p c
      · simp [List.dropWhile, h]; omega
      · simp [List.dropWhile, h]

def jsTrimL (l : List Char) : List Char :=
  ((l.dropWhile isJsSpace).reverse.dropWhile isJsSpace).reverse

def jsTrim (s : String) : String := ⟨jsTrimL s.data⟩

/-- Substring test: `containsSeq text pat` is true when `pat` occurs
contiguously inside `text`. -/
def containsSeq (text pat : List Char) : Bool :=
  match text with
  | [] => pat.isEmpty
  | _ :: t => pat.isPrefixOf text || containsSeq t pat

/-! ## JS regex fragments used by the sanitizer

`sanitizeStyleDescriptor` in the source applies, in order:
`replace(/\binspired by\b[^.?!]*/gi, "")`,
`replace(/\bin the style of\b[^.?!]*/gi, "")`,
`replace(/\s+/g, " ")`, `replace(/\s+([,.;:!?])/g, "$1")`, `trim()`,
`replace(/^[,.;:\-\s]+|[,.;:\-\s]+$/g, "")`.
Each regex is modelled by a dedicated scanner with JS semantics:
left-to-right scan, at each index try the pattern, on success emit the
replacement and continue after the match, on failure emit one character
and move on.  `\b` is a word/non-word boundary, `[^.?!]*` is a greedy run
of non-sentence-ending characters, `/i` compares ASCII-case-insensitively.
-/

def isSentenceEnd (c : Char) : Bool := c = '.' || c = '?' || c = '!'

/-- Case-insensitive literal prefix match (the `/i` flag). -/
def ciPrefix : List Char → List Char → Bool
  | [], _ => true
  | _ :: _, [] => false
  | p :: ps, c :: cs => (lowerChar c = p) && ciPrefix ps cs

/-- Word boundary before a word character, given the previous character. -/
def boundaryBefore (prev : Option Char) : Bool :=
  match prev with
  | none => true
  | some c => !(isWordChar c)

/-- Word boundary after the (word-character-final) phrase: the next
character must be absent or a non-word character. -/
def boundaryAfter : List Char → Bool
  | [] => true
  | c :: _ => !(isWordChar c)

/-- Global replace of `/\b<phrase>\b[^.?!]*/gi` by the empty string.
`phrase` is given lowercased; it starts and ends with word characters.
Structured with fuel (the input length) so the kernel can evaluate it. -/
def stripPhraseAux (phrase : List Char) : Nat → Option Char → List Char → List Char
  | 0, _, _ => []
  | _ + 1, _, [] => []
  | fuel + 1, prev, c :: rest =>
      if boundaryBefore prev && ciPrefix phrase (c :: rest) &&
          boundaryAfter (List.drop phrase.length (c :: rest)) then
        let matched := List.take phrase.length (c :: rest)
        let afterPhrase := List.drop phrase.length (c :: rest)
        let run := afterPhrase.takeWhile (fun d => !(isSentenceEnd d))
        let tail := afterPhrase.dropWhile (fun d => !(isSentenceEnd d))
        let lastConsumed :=
          match run.getLast? with
          | some d => some d
          | none => matched.getLast?
        stripPhraseAux phrase fuel lastConsumed tail
      else
        c :: stripPhraseAux phrase fuel (some c) rest

def stripPhrase (phrase l : List Char) : List Char :=
  stripPhraseAux phrase l.length none l

/-- Global replace of `/\s+/g` by a single space. -/
def collapseWsAux : Bool → List Char → List Char
  | _, [] => []
  | prevSp, c :: r =>
      if isJsSpace c then
        if prevSp then collapseWsAux true r else ' ' :: collapseWsAux true r
      else
        c :: collapseWsAux false r

def collapseWs (l : List Char) : List Char := collapseWsAux false l

def isPunct6 (c : Char) : Bool :=
  c = ',' || c = '.' || c = ';' || c = ':' || c = '!' || c = '?'

/-- Global replace of `/\s+([,.;:!?])/g` by the captured punctuation. -/
def dropSpaceBeforePunctAux : Nat → List Char → List Char
  | 0, _ => []
  | _ + 1, [] => []
  | fuel + 1, c :: r =>
      if isJsSpace c then
        match r.dropWhile isJsSpace with
        | p :: r2 =>
            if isPunct6 p then p :: dropSpaceBeforePunctAux fuel r2
            else c :: dropSpaceBeforePunctAux fuel r
        | [] => c :: dropSpaceBeforePunctAux fuel r
      else c :: dropSpaceBeforePunctAux fuel r

def dropSpaceBeforePunct (l : List Char) : List Char :=
  dropSpaceBeforePunctAux l.length l

def isEdgeStrip (c : Char) : Bool :=
  c = ',' || c = '.' || c = ';' || c = ':' || c = '-' || isJsSpace c

/-- Global replace of `/^[,.;:\-\s]+|[,.;:\-\s]+$/g` by the empty string:
strips the leading and the trailing run of the class. -/
def stripEdges (l : List Char) : List Char :=
  ((l.dropWhile isEdgeStrip).reverse.dropWhile isEdgeStrip).reverse

/-- Embedding of `sanitizeStyleDescriptor` (server.ts lines 304-317). -/
def sanitizeStyleDescriptor (style : Option String) : Option String :=
  match style with
  | none => none
  | some s =>
      if s = "" then none
      else
        let cleaned :=
          stripEdges (jsTrimL (dropSpaceBeforePunct (collapseWs
            (stripPhrase "in the style of".data
              (stripPhrase "inspired by".data s.data)))))
        if cleaned = [] then none else some ⟨cleaned⟩

/-! ## JS number printing

JavaScript renders numbers in decimal.  The exact digit sequence of that
rendering never matters to the claims (only that it consists of digits, a
sign and a decimal point), so a rational is rendered as its integer part
and, for non-integers, six truncated fraction digits. -/

def digChar : Nat → Char
  | 0 => '0' | 1 => '1' | 2 => '2' | 3 => '3' | 4 => '4'
  | 5 => '5' | 6 => '6' | 7 => '7' | 8 => '8' | _ => '9'

def natCharsAux : Nat → Nat → List Char
  | 0, _ => []
  | fuel + 1, n =>
      if n < 10 then [digChar n]
      else natCharsAux fuel (n / 10) ++ [digChar (n % 10)]

def natChars (n : Nat) : List Char := natCharsAux (n + 1) n

def padTwoChars (n : Nat) : List Char := [digChar (n / 10 % 10), digChar (n % 10)]

def qChars (q : ℚ) : List Char :=
  (if q.num < 0 then ['-'] else []) ++ natChars q.num.natAbs ++
    (if q.den = 1 then []
     else '.' :: natChars (q.num.natAbs * 1000000 / q.den % 1000000))

/-- Rendering of `number.toFixed(2)` up to the exact rounding rule (the
claims depend only on the character set of the output). -/
def toFixed2Chars (q : ℚ) : List Char :=
  let n : ℤ := Rat.floor (q * 100 + 1 / 2)
  (if n < 0 then ['-'] else []) ++ natChars (n.natAbs / 100) ++ '.' :: padTwoChars (n.natAbs % 100)

/-! ## The blueprint document model

Documents handed to the tools are JSON objects; the schema constrains the
field types, so the embedding types each field directly (a field that is
absent from the document is `none`).  `mood` stands for `metadata.mood`
when `metadata` is present with a string `mood`. -/

structure VoiceSettings where
  voice_id : Option String
  model_id : Option String
  stability : Option ℚ
  similarity_boost : Option ℚ
  style_exaggeration : Option ℚ
  speaker_boost : Option Bool
deriving DecidableEq

structure BlueprintSection where
  name : Option String
  bars : Option ℚ
  energy : Option ℚ
  prompt : Option String
deriving DecidableEq

structure Blueprint where
  id : Option String
  style : Option String
  tempo_bpm : Option ℚ
  key : Option String
  time_signature : Option String
  mood : Option String
  lyrics : Option String
  voice : Option VoiceSettings
  sections : Option (List BlueprintSection)
deriving DecidableEq

def emptyBlueprint : Blueprint :=
  ⟨none, none, none, none, none, none, none, none, none⟩

/-! ## Prompt construction (server.ts lines 442-534) -/

def looksLikeJsonPayload (value : String) : Bool :=
  let trimmed := (jsTrim value).data
  match trimmed with
  | [] => false
  | c :: _ =>
      (c = '{' && trimmed.getLast? = some '}') ||
      (c = '[' && trimmed.getLast? = some ']')

/-- Section summary item: `name (bars, energy)` as in the two prompt
builders (`section.name?.trim() || "section"`, bars and energy rendered or
replaced by the fixed fallback texts). -/
def sectionSummaryPiece (sec : BlueprintSection) : List Char :=
  let name :=
    match sec.name with
    | some n => let t := jsTrimL n.data; if t = [] then "section".data else t
    | none => "section".data
  let bars :=
    match sec.bars with
    | some b => qChars b ++ " bars".data
    | none => "bars unspecified".data
  let energy :=
    match sec.energy with
    | some e => "energy ".data ++ toFixed2Chars e
    | none => "energy flexible".data
  name ++ " (".data ++ bars ++ ", ".data ++ energy ++ [')']

def joinCommaSpace : List (List Char) → List Char
  | [] => []
  | [l] => l
  | l :: ls => l ++ ',' :: ' ' :: joinCommaSpace ls

def sectionSummaryOf (bp : Blueprint) : List Char :=
  joinCommaSpace ((bp.sections.getD []).map sectionSummaryPiece)

def joinBlankLine : List (List Char) → List Char
  | [] => []
  | [l] => l
  | l :: ls => l ++ '\n' :: '\n' :: joinBlankLine ls

/-- Truthiness filter used by `.filter((line): line is string =>
Boolean(line))`: drops absent lines and empty strings. -/
def keptLines (lines : List (Option (List Char))) : List (List Char) :=
  (lines.filterMap id).filter (fun l => !l.isEmpty)

def optStringLine (v : Option String) (render : String → List Char) :
    Option (List Char) :=
  match v with
  | some s => if s = "" then none else some (render s)
  | none => none

def optNumLine (v : Option ℚ) (render : ℚ → List Char) : Option (List Char) :=
  match v with
  | some q => if q = 0 then none else some (render q)
  | none => none

/-- Embedding of `buildMusicPromptFromBlueprint` (lines 442-487). -/
def buildMusicPromptFromBlueprint (bp : Blueprint)
    (forceInstrumental : Bool) (promptOpt : Option String) : Option String :=
  match promptOpt with
  | some p =>
      if jsTrim p ≠ "" && !looksLikeJsonPayload p then some (jsTrim p)
      else buildMusicPromptCore bp forceInstrumental
  | none => buildMusicPromptCore bp forceInstrumental
where
  buildMusicPromptCore (bp : Blueprint) (forceInstrumental : Bool) :
      Option String :=
    let sectionSummary := sectionSummaryOf bp
    let lines := keptLines [
      some "Compose a complete, studio-quality song with instrumentation and sung vocals.".data,
      optStringLine bp.style (fun s => "Style/genre: ".data ++ s.data ++ ['.']),
      optNumLine bp.tempo_bpm (fun q => "Tempo: ".data ++ qChars q ++ " BPM.".data),
      optStringLine bp.key (fun s => "Key center: ".data ++ s.data ++ ['.']),
      optStringLine bp.time_signature
        (fun s => "Time signature: ".data ++ s.data ++ ['.']),
      optStringLine bp.mood (fun s => "Mood: ".data ++ s.data ++ ['.']),
      (if sectionSummary.isEmpty then none
       else some ("Song sections: ".data ++ sectionSummary ++ ['.'])),
      some (if forceInstrumental then "Make this fully instrumental (no vocals).".data
            else "Include clear lead vocals.".data),
      optStringLine bp.lyrics (fun _ =>
        "Use the following lyrics as the vocal topline and keep wording close:".data),
      (bp.lyrics.map (fun s => jsTrimL s.data))]
    if lines.isEmpty then none else some ⟨joinBlankLine lines⟩

def defaultSafeStyle : String :=
  "catchy pop-folk with introspective, poetic storytelling"

/-- Embedding of `buildPolicySafePromptFromBlueprint` (lines 489-534). -/
def buildPolicySafePromptFromBlueprint (bp : Blueprint)
    (forceInstrumental : Bool) : Option String :=
  let sectionSummary := sectionSummaryOf bp
  let sanitizedStyle :=
    (sanitizeStyleDescriptor bp.style).getD defaultSafeStyle
  let lines := keptLines [
    some "Compose a complete, studio-quality song with instrumentation and sung vocals.".data,
    some ("Style/genre: ".data ++ sanitizedStyle.data ++ ['.']),
    optNumLine bp.tempo_bpm (fun q => "Tempo: ".data ++ qChars q ++ " BPM.".data),
    optStringLine bp.key (fun s => "Key center: ".data ++ s.data ++ ['.']),
    optStringLine bp.time_signature
      (fun s => "Time signature: ".data ++ s.data ++ ['.']),
    optStringLine bp.mood (fun s => "Mood: ".data ++ s.data ++ ['.']),
    (if sectionSummary.isEmpty then none
     else some ("Song sections: ".data ++ sectionSummary ++ ['.'])),
    some "Keep it original and avoid imitating or referencing any specific named artist.".data,
    some (if forceInstrumental then "Make this fully instrumental (no vocals).".data
          else "Include clear lead vocals.".data),
    optStringLine bp.lyrics (fun _ =>
      "Use the following lyrics as the vocal topline and keep wording close:".data),
    (bp.lyrics.map (fun s => jsTrimL s.data))]
  if lines.isEmpty then none else some ⟨joinBlankLine lines⟩

/-! ## Duration estimation (server.ts lines 249-251 and 536-552) -/

/-- JS `Math.round` on a finite number: `⌊x + 1/2⌋`. -/
def jsRound (q : ℚ) : ℤ := Rat.floor (q + 1 / 2)

/-- JS `Math.min` and `Math.max` on two finite numbers. -/
def jsMin (a b : ℚ) : ℚ := if b ≤ a then b else a

def jsMax (a b : ℚ) : ℚ := if a ≤ b then b else a

/-- Embedding of `clampInteger` (lines 249-251):
`Math.max(min, Math.min(max, Math.round(value)))`. -/
def clampInteger (value lo hi : ℚ) : ℚ :=
  jsMax lo (jsMin hi ((jsRound value : ℤ) : ℚ))

/-- Numeric coercion `Number(s)` restricted to the shapes the claims
exercise: an optional sign, digits, an optional fraction.  The empty and
all-space strings coerce to `0`; anything else is NaN (`none`). -/
def parseJsNumber (s : String) : Option ℚ :=
  let t := jsTrimL s.data
  if t = [] then some 0
  else
    let (sign, rest) :=
      match t with
      | '-' :: r => ((-1 : ℚ), r)
      | '+' :: r => ((1 : ℚ), r)
      | _ => ((1 : ℚ), t)
    let intPart := rest.takeWhile Char.isDigit
    let after := rest.dropWhile Char.isDigit
    let digitsVal : List Char → ℚ :=
      fun ds => ((ds.foldl (fun acc c => acc * 10 + (c.toNat - 48)) 0 : ℕ) : ℚ)
    match after with
    | [] => if intPart = [] then none else some (sign * digitsVal intPart)
    | '.' :: fr =>
        if fr.all Char.isDigit && !(intPart = [] && fr = []) then
          some (sign * (digitsVal intPart +
            digitsVal fr / ((10 : ℚ) ^ fr.length)))
        else none
    | _ => none

/-- The numerator of the time signature: `split("/")[0]` then
`Number(raw) || 4`. -/
def beatsPerBarOf (timeSignature : String) : ℚ :=
  let numeratorRaw : String := ⟨timeSignature.data.takeWhile (fun c => c ≠ '/')⟩
  match parseJsNumber numeratorRaw with
  | some v => if v = 0 then 4 else v
  | none => 4

/-- Embedding of `estimateMusicLengthMs` (lines 536-552). -/
def estimateMusicLengthMs (bp : Blueprint) (requestedLengthMs : Option ℚ) : ℚ :=
  match requestedLengthMs with
  | some r => clampInteger r 10000 300000
  | none =>
      let bpm := bp.tempo_bpm.getD 100
      let beatsPerBar := beatsPerBarOf (bp.time_signature.getD "4/4")
      let totalBars : ℚ :=
        (bp.sections.getD []).foldl (fun acc sec => acc + sec.bars.getD 0) 0
      let fallbackBars := if totalBars > 0 then totalBars else 32
      let beatMs := 60000 / bpm
      clampInteger (fallbackBars * beatsPerBar * beatMs) 10000 300000

/-! ## JSON values and the upstream error-body extractors
(server.ts lines 264-302)

`JSON.parse` is a platform function; an upstream response body is carried
in parsed form as `Option Json` (`none` models a parse failure). -/

inductive Json where
  | null : Json
  | bool : Bool → Json
  | num : ℚ → Json
  | str : String → Json
  | arr : List Json → Json
  | obj : List (String × Json) → Json

/-- Property access `value["k"]`: named properties exist only on objects
(array and primitive property access yields `undefined`). -/
def Json.getField : Json → String → Option Json
  | .obj fields, k => fields.lookup k
  | _, _ => none

/-- The check `parsed && typeof parsed === "object"` in `parseJsonObject`:
truthy values of object type are objects and arrays (null is falsy). -/
def Json.isObjectLike : Json → Bool
  | .obj _ => true
  | .arr _ => true
  | _ => false

/-- Embedding of `parseJsonObject` composed with `JSON.parse` (lines
264-274), taking the already-parsed body. -/
def parseJsonObject (body : Option Json) : Option Json :=
  match body with
  | some j => if j.isObjectLike then some j else none
  | none => none

/-- Embedding of `extractErrorStatus` (lines 294-302). -/
def extractErrorStatus (body : Option Json) : Option String :=
  match parseJsonObject body with
  | none => none
  | some parsed =>
      match parsed.getField "detail" with
      | some detail =>
          if detail.isObjectLike then
            match detail.getField "status" with
            | some (.str s) => some s
            | _ => none
          else none
      | none => none

/-- Embedding of `extractPromptSuggestion` (lines 276-292). -/
def extractPromptSuggestion (body : Option Json) : Option String :=
  match parseJsonObject body with
  | none => none
  | some parsed =>
      match parsed.getField "detail" with
      | some detail =>
          if detail.isObjectLike then
            match detail.getField "data" with
            | some data =>
                if data.isObjectLike then
                  match data.getField "prompt_suggestion" with
                  | some (.str s) =>
                      if jsTrim s = "" then none else some (jsTrim s)
                  | _ => none
                else none
            | none => none
          else none
      | none => none

/-! ## Upstream responses -/

/-- An HTTP response from the upstream music endpoint: status code, the
raw body text, and the body as parsed by `JSON.parse` (`none` when the
body is not valid JSON). -/
structure UpstreamResponse where
  status : Nat
  bodyText : String
  bodyJson : Option Json

/-- `fetch` marks a response ok when its status is in 200..299. -/
def UpstreamResponse.ok (r : UpstreamResponse) : Bool :=
  decide (200 ≤ r.status) && decide (r.status < 300)

/-! ## composeSongWithElevenMusic (server.ts lines 579-694) -/

structure ComposeArgs where
  blueprint : Blueprint
  prompt : Option String
  model_id : Option String
  music_length_ms : Option ℚ
  force_instrumental : Option Bool
  output_format : Option String

structure ComposeEnv where
  apiKey : Option String
  musicOutputFormatEnv : Option String
  musicModelIdEnv : Option String

/-- Model id selection (lines 596-601): the caller-supplied id is used
only when, trimmed, it is non-empty and its lowercase form starts with
`music`; otherwise the environment default (or `music_v1`) is used. -/
def selectedMusicModelId (musicModelIdEnv : Option String)
    (argModelId : Option String) : String :=
  let defaultMusicModelId := musicModelIdEnv.getD "music_v1"
  match argModelId with
  | none => defaultMusicModelId
  | some m =>
      let requested := jsTrim m
      if requested ≠ "" && "music".data.isPrefixOf (lowerL requested.data) then
        requested
      else defaultMusicModelId

/-- Body of one POST to the upstream music endpoint. -/
structure MusicRequest where
  prompt : String
  model_id : String
  music_length_ms : ℚ
  force_instrumental : Bool
deriving DecidableEq

/-- The outcome variants of `composeSongWithElevenMusic`, one per return
site of the source function. -/
inductive ComposeResult where
  | missingApiKey : ComposeResult
  | missingPrompt : ComposeResult
  | retryFailed (status : Nat) (responseBody : String) : ComposeResult
  | firstFailed (status : Nat) (responseBody : String)
      (promptSuggestion : Option String) (originalPromptRejected : Bool) :
      ComposeResult
  | success (modelId : String) (musicLengthMs : ℚ) (forceInstrumental : Bool)
      (moderationFallbackApplied : Bool) (promptUsed : String) : ComposeResult
deriving DecidableEq

/-- The `original_prompt_rejected` field of the structured error content:
the retry-failure envelope carries the literal `true`, the first-failure
envelope carries `isBadPrompt`, and success envelopes omit the field. -/
def ComposeResult.originalPromptRejected : ComposeResult → Option Bool
  | .retryFailed _ _ => some true
  | .firstFailed _ _ _ rejected => some rejected
  | _ => none

def ComposeResult.isErrorEnvelope : ComposeResult → Bool
  | .success _ _ _ _ _ => false
  | _ => true

structure ComposeOutcome where
  requests : List MusicRequest
  result : ComposeResult

/-- Embedding of `composeSongWithElevenMusic` (lines 579-694).  The
`respond` oracle supplies the upstream response to the n-th request
issued.  File-system writes are outside the model. -/
def composeSongWithElevenMusic (env : ComposeEnv) (args : ComposeArgs)
    (respond : Nat → UpstreamResponse) : ComposeOutcome :=
  if env.apiKey.getD "" = "" then ⟨[], .missingApiKey⟩
  else
    let modelId := selectedMusicModelId env.musicModelIdEnv args.model_id
    let forceInstrumental := args.force_instrumental.getD false
    let musicLengthMs := estimateMusicLengthMs args.blueprint args.music_length_ms
    match buildMusicPromptFromBlueprint args.blueprint forceInstrumental args.prompt with
    | none => ⟨[], .missingPrompt⟩
    | some prompt =>
        let mkReq : String → MusicRequest :=
          fun p => ⟨p, modelId, musicLengthMs, forceInstrumental⟩
        let response := respond 0
        if response.ok then
          ⟨[mkReq prompt],
            .success modelId musicLengthMs forceInstrumental false prompt⟩
        else
          let errorStatus := extractErrorStatus response.bodyJson
          let isBadPrompt :=
            response.status = 400 && errorStatus = some "bad_prompt"
          let suggestedPrompt := extractPromptSuggestion response.bodyJson
          let safeFallbackPrompt :=
            buildPolicySafePromptFromBlueprint args.blueprint forceInstrumental
          let retryPrompt := suggestedPrompt.orElse (fun _ => safeFallbackPrompt)
          match retryPrompt with
          | some rp =>
              if isBadPrompt && rp ≠ "" && rp ≠ prompt then
                let retryResponse := respond 1
                if retryResponse.ok then
                  ⟨[mkReq prompt, mkReq rp],
                    .success modelId musicLengthMs forceInstrumental true rp⟩
                else
                  ⟨[mkReq prompt, mkReq rp],
                    .retryFailed retryResponse.status retryResponse.bodyText⟩
              else
                ⟨[mkReq prompt],
                  .firstFailed response.status response.bodyText
                    suggestedPrompt isBadPrompt⟩
          | none =>
              ⟨[mkReq prompt],
                .firstFailed response.status response.bodyText
                  suggestedPrompt isBadPrompt⟩

/-- Moderation-class rejection of a response: HTTP 400 whose error body
carries the `bad_prompt` status (lines 636-637). -/
def moderationRejected (r : UpstreamResponse) : Bool :=
  !r.ok && (r.status = 400 && extractErrorStatus r.bodyJson = some "bad_prompt")

/-! ## Schema validation (server.ts lines 122-130, 344-355, 705-731)

The compiled JSON-Schema file `docs/blueprint_schema.json` and the Ajv
library are outside `src/`.  Modelled from the spec: the validator checks
the document against the schema and reports each violation as a
`{location, message}` pair whose location is an instance pointer into the
document, the empty string denoting the document root (spec section 4.1);
a document missing a required root field yields one such root-level error
per missing field.  The concrete required-field list stands for the
schema's root `required` clause, which the spec does not enumerate. -/

structure AjvError where
  instancePath : String
  message : Option String
deriving DecidableEq

def fieldPresent (bp : Blueprint) : String → Bool
  | "id" => bp.id.isSome
  | "style" => bp.style.isSome
  | "tempo_bpm" => bp.tempo_bpm.isSome
  | "key" => bp.key.isSome
  | "time_signature" => bp.time_signature.isSome
  | "lyrics" => bp.lyrics.isSome
  | "voice" => bp.voice.isSome
  | "sections" => bp.sections.isSome
  | _ => false

/-- Modelled from the spec: Ajv validation of a document against a schema
requiring the fields `reqd` at the document root.  Each missing field
produces one error whose `instancePath` is the empty string (the document
root). -/
def schemaValidate (reqd : List String) (bp : Blueprint) :
    Bool × List AjvError :=
  let errs := (reqd.filter (fun f => !fieldPresent bp f)).map
    (fun f => AjvError.mk "" (some ("must have required property " ++ f)))
  (errs.isEmpty, errs)

/-- Modelled from the spec: the root `required` clause of the bundled
blueprint schema. -/
def blueprintRequiredFields : List String :=
  ["id", "style", "tempo_bpm", "time_signature", "sections"]

/-- Embedding of `formatAjvErrors` (lines 122-130): `null`, `undefined`
and `[]` give `[]`; otherwise each error becomes
`(instancePath || "/") ++ ": " ++ (message ?? "validation error")`. -/
def formatAjvErrors (errors : Option (List AjvError)) : List String :=
  match errors with
  | none => []
  | some errs =>
      if errs.isEmpty then []
      else errs.map (fun e =>
        (if e.instancePath = "" then "/" else e.instancePath) ++ ": " ++
          e.message.getD "validation error")

/-- Envelope returned by the `validate_blueprint` tool: the
`structuredContent` fields `ok` and `errors`. -/
structure ValidateEnvelope where
  ok : Bool
  errors : List String
deriving DecidableEq

/-- Embedding of the `validate_blueprint` tool handler (lines 705-731),
parametric in the compiled validator exactly as the source is. -/
def validate_blueprint (validator : Blueprint → Bool × List AjvError)
    (blueprint : Blueprint) : ValidateEnvelope :=
  let r := validator blueprint
  let errors := formatAjvErrors (some r.2)
  if !r.1 then ⟨false, errors⟩ else ⟨true, []⟩

/-! ## synthesize_preview (server.ts lines 357-440, 733-762) -/

structure PreviewArgs where
  text : Option String
  blueprint : Option Blueprint
  voice_id : Option String
  model_id : Option String
  stability : Option ℚ
  similarity_boost : Option ℚ
  style_exaggeration : Option ℚ
  speaker_boost : Option Bool

structure PreviewEnv where
  apiKey : Option String
  defaultVoiceId : Option String
  defaultModelId : String

/-- One POST to the text-to-speech endpoint. -/
structure TtsRequest where
  text : String
  voice_id : String
  model_id : String
deriving DecidableEq

inductive PreviewResult where
  | missingApiKey : PreviewResult
  | missingText : PreviewResult
  | missingVoiceId : PreviewResult
  | upstreamFailed (status : Nat) (responseBody : String) : PreviewResult
  | validationFailed (errors : List String) : PreviewResult
  | success (voiceId : String) (modelId : String) : PreviewResult
deriving DecidableEq

structure PreviewOutcome where
  requests : List TtsRequest
  result : PreviewResult

/-- Embedding of `synthesizePreview` (lines 357-440). -/
def synthesizePreview (env : PreviewEnv) (args : PreviewArgs)
    (respond : Nat → UpstreamResponse) : PreviewOutcome :=
  if env.apiKey.getD "" = "" then ⟨[], .missingApiKey⟩
  else
    let blueprintVoice := args.blueprint.bind (fun bp => bp.voice)
    let text := args.text.orElse (fun _ => args.blueprint.bind (fun bp => bp.lyrics))
    let voiceId := (args.voice_id.orElse
      (fun _ => blueprintVoice.bind (fun v => v.voice_id))).orElse
      (fun _ => env.defaultVoiceId)
    let modelId := ((args.model_id.orElse
      (fun _ => blueprintVoice.bind (fun v => v.model_id)))).getD env.defaultModelId
    match text with
    | none => ⟨[], .missingText⟩
    | some t =>
        if jsTrimL t.data = [] then ⟨[], .missingText⟩
        else
          match voiceId with
          | none => ⟨[], .missingVoiceId⟩
          | some vid =>
              let response := respond 0
              if response.ok then
                ⟨[⟨t, vid, modelId⟩], .success vid modelId⟩
              else
                ⟨[⟨t, vid, modelId⟩],
                  .upstreamFailed response.status response.bodyText⟩

/-- Embedding of the `synthesize_preview` tool handler (lines 733-762):
when a blueprint is supplied it is validated first, and a failing
blueprint short-circuits before `synthesizePreview` runs. -/
def synthesize_preview (validator : Blueprint → Bool × List AjvError)
    (env : PreviewEnv) (args : PreviewArgs)
    (respond : Nat → UpstreamResponse) : PreviewOutcome :=
  match args.blueprint with
  | some bp =>
      let r := validator bp
      if !r.1 then ⟨[], .validationFailed (formatAjvErrors (some r.2))⟩
      else synthesizePreview env args respond
  | none => synthesizePreview env args respond

/-! ## create_song (server.ts lines 764-793) -/

inductive CreateSongResult where
  | validationFailed (errors : List String) : CreateSongResult
  | composed (r : ComposeResult) : CreateSongResult
deriving DecidableEq

structure CreateSongOutcome where
  requests : List MusicRequest
  result : CreateSongResult

/-- Embedding of the `create_song` tool handler (lines 764-793): the
blueprint is validated first and a failing blueprint short-circuits
before `composeSongWithElevenMusic` runs. -/
def create_song (validator : Blueprint → Bool × List AjvError)
    (env : ComposeEnv) (args : ComposeArgs)
    (respond : Nat → UpstreamResponse) : CreateSongOutcome :=
  let r := validator args.blueprint
  if !r.1 then ⟨[], .validationFailed (formatAjvErrors (some r.2))⟩
  else
    let c := composeSongWithElevenMusic env args respond
    ⟨c.requests, .composed c.result⟩

/-! ## createMomentViaApi and create_moment
(server.ts lines 144-234, 795-852) -/

/-- Response of one `GET /v1/status/{job_id}` poll: status code, raw
body, and the body as parsed JSON. -/
structure StatusResponse where
  httpStatus : Nat
  bodyText : String
  json : Json

def StatusResponse.ok (r : StatusResponse) : Bool :=
  decide (200 ≤ r.httpStatus) && decide (r.httpStatus < 300)

/-- The string coercion `String(statusJson["status"] ?? "")`: absent and
null fields become the empty string; non-string values are rendered (the
claims depend only on whether the result equals `COMPLETED`). -/
def statusStringOf (j : Json) : String :=
  match j.getField "status" with
  | none => ""
  | some .null => ""
  | some (.str s) => s
  | some (.bool b) => if b then "true" else "false"
  | some (.num q) => ⟨qChars q⟩
  | some (.arr _) => ""
  | some (.obj _) => "[object Object]"

inductive PollOutcome where
  | completed (jobId : String) (statusJson : Json) : PollOutcome
  | timedOut (jobId : String) : PollOutcome
  | upstreamError (httpStatus : Nat) (body : String) : PollOutcome

/-- The poll loop of `createMomentViaApi` (lines 218-233).  Status
fetches are modelled as instantaneous; `elapsed` advances by the poll
interval at each `sleep`.  The returned number is the elapsed time at
which the loop returned.  Structured with fuel so the kernel can
evaluate it; `pollLoop` supplies fuel that is always sufficient since
the clamped interval is at least 250 ms. -/
def pollLoopAux (statusAt : Nat → StatusResponse)
    (pollIntervalMs timeoutMs : Nat) (jobId : String) :
    Nat → Nat → Nat → PollOutcome × Nat
  | 0, _, elapsed => (.timedOut jobId, elapsed)
  | fuel + 1, k, elapsed =>
      if elapsed < timeoutMs then
        let resp := statusAt k
        if resp.ok then
          if statusStringOf resp.json = "COMPLETED" then
            (.completed jobId resp.json, elapsed)
          else
            pollLoopAux statusAt pollIntervalMs timeoutMs jobId fuel (k + 1)
              (elapsed + pollIntervalMs)
        else (.upstreamError resp.httpStatus resp.bodyText, elapsed)
      else (.timedOut jobId, elapsed)

def pollLoop (statusAt : Nat → StatusResponse)
    (pollIntervalMs timeoutMs : Nat) (jobId : String) : PollOutcome × Nat :=
  pollLoopAux statusAt pollIntervalMs timeoutMs jobId (timeoutMs + 1) 0 0

/-- Clamping of the poll interval (line 156):
`Math.max(250, Math.min(10000, Math.floor(... ?? 1500)))`. -/
def clampPollIntervalMs (arg : Option Nat) : Nat :=
  Nat.max 250 (Nat.min 10000 (arg.getD 1500))

/-- Clamping of the timeout (line 157):
`Math.max(5000, Math.min(1200000, Math.floor(... ?? 180000)))`. -/
def clampTimeoutMs (arg : Option Nat) : Nat :=
  Nat.max 5000 (Nat.min 1200000 (arg.getD 180000))

structure MomentArgs where
  audio_url : Option String
  audio_path : Option String
  filename : Option String
  /-- The `blueprint_json` argument, carried as the document it
  serializes (the handler never parses or validates it). -/
  blueprint_json : Option Blueprint
  output_kind : Option String
  api_base_url : Option String
  poll_interval_ms : Option Nat
  timeout_ms : Option Nat

/-- One network request issued by `createMomentViaApi`. -/
inductive MomentRequest where
  | downloadAudio (url : String) : MomentRequest
  | createMoment (baseUrl : String) (blueprintJson : Option Blueprint)
      (outputKind : Option String) : MomentRequest
  | statusPoll (baseUrl : String) (jobId : String) : MomentRequest
deriving DecidableEq

/-- External-world oracles for `createMomentViaApi`. -/
structure MomentOracle where
  /-- Response to the `fetch(audio_url)` download. -/
  download : UpstreamResponse
  /-- Whether `readFile(audio_path)` succeeds. -/
  fileReadOk : Bool
  /-- Response to the `POST /v1/create-moment` call; its body carries the
  optional `job_id`. -/
  createResponse : UpstreamResponse
  /-- The `job_id` field of the create response body. -/
  jobId : Option String
  /-- Response to the n-th status poll. -/
  statusAt : Nat → StatusResponse

inductive MomentResult where
  | thrown (message : String) : MomentResult
  | completed (jobId : String) (statusJson : Json) : MomentResult
  | timedOut (jobId : String) : MomentResult

structure MomentOutcome where
  requests : List MomentRequest
  result : MomentResult
  finalElapsed : Nat

/-- Embedding of `createMomentViaApi` (lines 144-234).  Buffer contents
and multipart assembly are outside the model; what is tracked is which
network requests are issued and how the poll loop terminates. -/
def createMomentViaApi (envBaseUrl : Option String) (args : MomentArgs)
    (oracle : MomentOracle) : MomentOutcome :=
  let apiBaseUrl := (args.api_base_url.orElse (fun _ => envBaseUrl)).getD
    "http://127.0.0.1:8000"
  let pollIntervalMs := clampPollIntervalMs args.poll_interval_ms
  let timeoutMs := clampTimeoutMs args.timeout_ms
  match args.audio_url with
  | some url =>
      if oracle.download.ok then
        createMomentSubmit apiBaseUrl pollIntervalMs timeoutMs args oracle
          [.downloadAudio url]
      else
        ⟨[.downloadAudio url], .thrown "Unable to download audio_url", 0⟩
  | none =>
      match args.audio_path with
      | some _ =>
          if oracle.fileReadOk then
            createMomentSubmit apiBaseUrl pollIntervalMs timeoutMs args oracle []
          else ⟨[], .thrown "readFile failed", 0⟩
      | none => ⟨[], .thrown "Provide audio_url or audio_path.", 0⟩
where
  createMomentSubmit (apiBaseUrl : String) (pollIntervalMs timeoutMs : Nat)
      (args : MomentArgs) (oracle : MomentOracle)
      (prefixReqs : List MomentRequest) : MomentOutcome :=
    let createReq : MomentRequest :=
      .createMoment apiBaseUrl args.blueprint_json args.output_kind
    if !oracle.createResponse.ok then
      ⟨prefixReqs ++ [createReq], .thrown "API create-moment failed", 0⟩
    else
      match oracle.jobId with
      | none =>
          ⟨prefixReqs ++ [createReq],
            .thrown "API create-moment response missing job_id.", 0⟩
      | some jobId =>
          let (outcome, elapsed) :=
            pollLoop oracle.statusAt pollIntervalMs timeoutMs jobId
          let pollCount :=
            match outcome with
            | .completed _ _ => elapsed / pollIntervalMs + 1
            | .upstreamError _ _ => elapsed / pollIntervalMs + 1
            | .timedOut _ => (elapsed + pollIntervalMs - 1) / pollIntervalMs
          let pollReqs := (List.range pollCount).map
            (fun _ => MomentRequest.statusPoll apiBaseUrl jobId)
          match outcome with
          | .completed j sj =>
              ⟨prefixReqs ++ [createReq] ++ pollReqs, .completed j sj, elapsed⟩
          | .timedOut j =>
              ⟨prefixReqs ++ [createReq] ++ pollReqs, .timedOut j, elapsed⟩
          | .upstreamError _ body =>
              ⟨prefixReqs ++ [createReq] ++ pollReqs,
                .thrown ("API status failed (status) " ++ body), elapsed⟩

/-- Envelope returned by the `create_moment` tool handler (lines
795-852). -/
inductive CreateMomentResult where
  | pipelineFailed (message : String) : CreateMomentResult
  | timedOutEnvelope (jobId : String) : CreateMomentResult
  | completedEnvelope (jobId : String) (statusJson : Json) : CreateMomentResult

structure CreateMomentOutcome where
  requests : List MomentRequest
  result : CreateMomentResult

/-- Embedding of the `create_moment` tool handler: it forwards its
arguments to `createMomentViaApi` (no blueprint validation occurs) and
maps the result into the tool envelope; a timeout becomes a
`toolError` envelope carrying the job id, a thrown error becomes the
pipeline-failure envelope. -/
def create_moment (envBaseUrl : Option String) (args : MomentArgs)
    (oracle : MomentOracle) : CreateMomentOutcome :=
  let r := createMomentViaApi envBaseUrl args oracle
  match r.result with
  | .thrown msg => ⟨r.requests, .pipelineFailed msg⟩
  | .timedOut jobId => ⟨r.requests, .timedOutEnvelope jobId⟩
  | .completed jobId sj => ⟨r.requests, .completedEnvelope jobId sj⟩

/-! ## The HTTP authorization gate (server.ts lines 319-342, 936-945) -/

/-- An incoming header value: Node types it `string | string[] |
undefined`. -/
inductive HeaderValue where
  | missing : HeaderValue
  | single (s : String) : HeaderValue
  | multi (l : List String) : HeaderValue

/-- Embedding of `getHeaderValue` (lines 319-324). -/
def getHeaderValue : HeaderValue → Option String
  | .missing => none
  | .single s => some s
  | .multi l => l.head?

def isLineTerminator (c : Char) : Bool :=
  c = '\n' || c = '\r' || c = Char.ofNat 8232 || c = Char.ofNat 8233

/-- Matching of `/^Bearer\s+(.+)$/i` against a header, returning the
captured group: a case-insensitive `Bearer` prefix, one or more
whitespace characters (greedy, backtracking just enough to leave a
non-empty line-terminator-free remainder), then the captured rest. -/
def bearerCapture (header : String) : Option String :=
  let l := header.data
  if ciPrefix "bearer".data l then
    let rest := l.drop 6
    let ws := rest.takeWhile isJsSpace
    let grp := rest.dropWhile isJsSpace
    if ws.isEmpty then none
    else
      match grp with
      | _ :: _ => if grp.any isLineTerminator then none else some ⟨grp⟩
      | [] =>
          match rest.getLast? with
          | some c =>
              if 2 ≤ ws.length && !isLineTerminator c then some ⟨[c]⟩
              else none
          | none => none
  else none

/-- Embedding of `isAuthorizedRequest` (lines 326-342), with the
configured token passed explicitly (`process.env.MCP_AUTH_TOKEN`). -/
def isAuthorizedRequest (requiredToken : Option String)
    (authorizationHeader : HeaderValue) : Bool :=
  if requiredToken.getD "" = "" then true
  else
    match getHeaderValue authorizationHeader with
    | none => false
    | some authHeader =>
        match bearerCapture authHeader with
        | none => false
        | some captured => captured = requiredToken.getD ""

/-! ## The stateful HTTP session machine (server.ts lines 912-926,
947-1027)

The mutable broker state is the pair of maps `transports` and
`sessionServers`; each handled request or closure event is one atomic
step of the single-threaded event loop. -/

inductive TransportKind where
  | streamable : TransportKind
  | sse : TransportKind
deriving DecidableEq

structure SessionState where
  transports : List (String × TransportKind)
  sessionServers : List (String × Nat)

def emptySessionState : SessionState := ⟨[], []⟩

structure SessionRequest where
  method : String
  /-- The `mcp-session-id` header after `getHeaderValue`. -/
  sessionId : Option String
  isInitialize : Bool

/-- JS truthiness of the session header: present and non-empty. -/
def sidTruthy : Option String → Bool
  | some s => s ≠ ""
  | none => false

inductive SessionResponse where
  /-- The request was routed to the existing streamable transport. -/
  | handledBy (sessionId : String) : SessionResponse
  /-- A new session was initialized and registered. -/
  | newSession (sessionId : String) : SessionResponse
  /-- 400, code -32000: session bound to a different transport kind. -/
  | transportMismatch : SessionResponse
  /-- 400, code -32000: `No valid MCP session.` -/
  | noValidSession : SessionResponse
  /-- 401 from the auth gate, before any session logic. -/
  | unauthorized : SessionResponse
deriving DecidableEq

/-- Embedding of `releaseSessionReferences` (lines 912-915): deletes both
map entries for the identifier. -/
def releaseSessionReferences (st : SessionState) (sessionId : String) :
    SessionState :=
  ⟨st.transports.filter (fun e => e.1 ≠ sessionId),
   st.sessionServers.filter (fun e => e.1 ≠ sessionId)⟩

/-- Embedding of the stateful branch of the `app.all` handler (lines
958-1012).  `freshId` is the identifier the SDK generator would allocate
for a newly initialized session; registration models a successful
`onsessioninitialized` callback. -/
def handleStatefulRequest (st : SessionState) (freshId : String)
    (freshServer : Nat) (req : SessionRequest) :
    SessionState × SessionResponse :=
  match (if sidTruthy req.sessionId then req.sessionId else none) with
  | some sid =>
      match st.transports.lookup sid with
      | some .streamable => (st, .handledBy sid)
      | some .sse => (st, .transportMismatch)
      | none =>
          -- a present identifier forces the reuse branch; with no entry,
          -- the initialize branch is unreachable (`!sessionId` fails)
          (st, .noValidSession)
  | none =>
      if req.method = "POST" && req.isInitialize then
        (⟨(freshId, .streamable) :: st.transports,
          (freshId, freshServer) :: st.sessionServers⟩, .newSession freshId)
      else (st, .noValidSession)

/-- The full `/mcp` pipeline: the auth gate runs before the session
logic (the `app.use` middleware at lines 936-945 precedes the `app.all`
handler). -/
def handleMcpRequest (requiredToken : Option String)
    (authorizationHeader : HeaderValue) (st : SessionState)
    (freshId : String) (freshServer : Nat) (req : SessionRequest) :
    SessionState × SessionResponse :=
  if !isAuthorizedRequest requiredToken authorizationHeader then
    (st, .unauthorized)
  else handleStatefulRequest st freshId freshServer req

/-! ## The stateless HTTP initialization machine (server.ts lines
877-910)

`ensureStatelessTransportReady` runs on the single-threaded event loop:
the null-checks, the construction of the server/transport pair and the
recording of the init promise happen in one synchronous block, so each
request arrival is one atomic step; the promise settling is another. -/

structure StatelessState where
  serverSet : Bool
  transportSet : Bool
  initInFlight : Bool
  constructions : Nat
deriving DecidableEq

def statelessInit : StatelessState := ⟨false, false, false, 0⟩

inductive StatelessEvent where
  /-- A request arrives and runs `ensureStatelessTransportReady` up to
  its `await`. -/
  | arrive : StatelessEvent
  /-- The in-flight `server.connect(transport)` promise settles; on
  failure the catch clause nulls both references, and the finally clause
  clears the promise either way. -/
  | initDone (success : Bool) : StatelessEvent
deriving DecidableEq

def statelessStep (s : StatelessState) : StatelessEvent → StatelessState
  | .arrive =>
      if s.serverSet && s.transportSet && !s.initInFlight then s
      else if !s.initInFlight then
        ⟨true, true, true, s.constructions + 1⟩
      else s
  | .initDone success =>
      if s.initInFlight then
        if success then { s with initInFlight := false }
        else ⟨false, false, false, s.constructions⟩
      else s

def statelessRun (events : List StatelessEvent) : StatelessState :=
  events.foldl statelessStep statelessInit

/-! # Theorems -/

/-! ## C3: duration derivation -/

/-- The duration formula as the spec states it:
`durationMs = totalBars × beatsPerBar × (60000/bpm)`. -/
def specEstimatedDurationMs (totalBars beatsPerBar bpm : ℚ) : ℚ :=
  totalBars * beatsPerBar * (60000 / bpm)

/-- Blueprint of the concrete example in the claim: tempo 120 BPM, time
signature 4/4, sections totaling 32 bars. -/
def blueprint32Bars : Blueprint :=
  ⟨none, none, some 120, none, some "4/4", none, none, none,
    some [⟨none, some 16, none, none⟩, ⟨none, some 16, none, none⟩]⟩

/-- Blueprint with tempo 120 BPM, time signature 4/4 and an empty section
list, so the summed section bar count is 0. -/
def emptySectionsBlueprint : Blueprint :=
  ⟨none, none, some 120, none, some "4/4", none, none, none, some []⟩

theorem jsRound_intCast (r : ℤ) : jsRound ((r : ℤ) : ℚ) = r := by
  have h : jsRound ((r : ℤ) : ℚ) = ⌊((r : ℤ) : ℚ) + 1 / 2⌋ := rfl
  rw [h, Int.floor_int_add]
  norm_num

theorem clampInteger_int_in_range (r : ℤ) (hlo : 10000 ≤ r)
    (hhi : r ≤ 300000) : clampInteger ((r : ℤ) : ℚ) 10000 300000 = (r : ℚ) := by
  unfold clampInteger jsMin jsMax
  rw [jsRound_intCast]
  have h1 : ((r : ℤ) : ℚ) ≤ 300000 := by exact_mod_cast hhi
  rw [if_pos h1]
  have h2 : (10000 : ℚ) ≤ ((r : ℤ) : ℚ) := by exact_mod_cast hlo
  rw [if_pos h2]

/-- C3 (amended): the requested music duration is the caller-supplied
milliseconds clamped to [10000, 300000] when supplied, and otherwise
effBars × beatsPerBar × (60000/bpm) clamped to the same range, where
effBars is the summed section bar count when that sum is positive and a
fallback of 32 bars otherwise (server.ts line 547); tempo 120 BPM, 4/4
and 32 total bars give 64000 ms (in range, unchanged by clamping), a
requested 500000 ms clamps to 300000 ms, and a requested 1000 ms clamps
to 10000 ms. -/
theorem C3_duration_derivation :
    (∀ (bp : Blueprint) (r : ℤ), 10000 ≤ r → r ≤ 300000 →
        estimateMusicLengthMs bp (some ((r : ℤ) : ℚ)) = (r : ℚ)) ∧
    (∀ (bp : Blueprint) (bpm : ℚ) (ts : String) (secs : List BlueprintSection),
        bp.tempo_bpm = some bpm → bp.time_signature = some ts →
        bp.sections = some secs →
        estimateMusicLengthMs bp none =
          clampInteger
            (specEstimatedDurationMs
              (if secs.foldl (fun acc sec => acc + sec.bars.getD 0) 0 > 0
               then secs.foldl (fun acc sec => acc + sec.bars.getD 0) 0
               else 32)
              (beatsPerBarOf ts) bpm) 10000 300000) ∧
    beatsPerBarOf "4/4" = 4 ∧
    specEstimatedDurationMs 32 4 120 = 64000 ∧
    estimateMusicLengthMs blueprint32Bars none = 64000 ∧
    (∀ bp : Blueprint, estimateMusicLengthMs bp (some 500000) = 300000) ∧
    (∀ bp : Blueprint, estimateMusicLengthMs bp (some 1000) = 10000) := by
  refine ⟨?_, ?_, ?_, ?_, ?_, ?_, ?_⟩
  · intro bp r hlo hhi
    simp only [estimateMusicLengthMs]
    exact clampInteger_int_in_range r hlo hhi
  · intro bp bpm ts secs htempo hts hsecs
    simp only [estimateMusicLengthMs, specEstimatedDurationMs, htempo, hts,
      hsecs, Option.getD_some]
  · with_unfolding_all rfl
  · with_unfolding_all rfl
  · with_unfolding_all rfl
  · intro bp
    simp only [estimateMusicLengthMs]
    with_unfolding_all rfl
  · intro bp
    simp only [estimateMusicLengthMs]
    with_unfolding_all rfl

/-- Witness for C3 at concrete inputs, exercising both the summed-bars
branch and the empty-sections fallback branch. -/
theorem C3_duration_derivation_witness :
    estimateMusicLengthMs emptyBlueprint (some ((20000 : ℤ) : ℚ)) =
      ((20000 : ℤ) : ℚ) ∧
    estimateMusicLengthMs blueprint32Bars none =
      clampInteger
        (specEstimatedDurationMs
          (if (([(⟨none, some 16, none, none⟩ : BlueprintSection),
                 ⟨none, some 16, none, none⟩]).foldl
                (fun acc sec => acc + sec.bars.getD 0) 0) > 0
           then (([(⟨none, some 16, none, none⟩ : BlueprintSection),
                   ⟨none, some 16, none, none⟩]).foldl
                  (fun acc sec => acc + sec.bars.getD 0) 0)
           else 32)
          (beatsPerBarOf "4/4") 120) 10000 300000 ∧
    estimateMusicLengthMs emptySectionsBlueprint none =
      clampInteger
        (specEstimatedDurationMs
          (if (([] : List BlueprintSection).foldl
                (fun acc sec => acc + sec.bars.getD 0) 0) > 0
           then (([] : List BlueprintSection).foldl
                  (fun acc sec => acc + sec.bars.getD 0) 0)
           else 32)
          (beatsPerBarOf "4/4") 120) 10000 300000 :=
  ⟨C3_duration_derivation.1 emptyBlueprint 20000 (by norm_num) (by norm_num),
   C3_duration_derivation.2.1 blueprint32Bars 120 "4/4"
     [⟨none, some 16, none, none⟩, ⟨none, some 16, none, none⟩]
     rfl rfl rfl,
   C3_duration_derivation.2.1 emptySectionsBlueprint 120 "4/4" []
     rfl rfl rfl⟩

/-- C3 counterexample to the original claim: on a blueprint whose summed
section bar count is 0 (tempo 120 BPM, 4/4, empty section list), the code
substitutes the 32-bar fallback and returns 64000 ms, whereas the
claimed formula totalBars × beatsPerBar × (60000/bpm), clamped, gives
10000 ms. -/
theorem C3_counterexample_empty_sections_fallback :
    estimateMusicLengthMs emptySectionsBlueprint none = 64000 ∧
    clampInteger (specEstimatedDurationMs 0 (beatsPerBarOf "4/4") 120)
      10000 300000 = 10000 ∧
    (64000 : ℚ) ≠ 10000 := by
  refine ⟨?_, ?_, by norm_num⟩
  · with_unfolding_all rfl
  · with_unfolding_all rfl

/-! ## C10: model id selection -/

/-- A caller-supplied model id passes the gate when, trimmed, it is
non-empty and its lowercase form starts with `music`. -/
def musicModelIdAccepted (m : String) : Bool :=
  jsTrim m ≠ "" && "music".data.isPrefixOf (lowerL (jsTrim m).data)

theorem selectedMusicModelId_accepted (envDefault : Option String)
    (m : String) (hm : musicModelIdAccepted m = true) :
    selectedMusicModelId envDefault (some m) = jsTrim m := by
  unfold musicModelIdAccepted at hm
  unfold selectedMusicModelId
  dsimp only
  rw [if_pos hm]

theorem selectedMusicModelId_rejected (envDefault : Option String)
    (m : String) (hm : musicModelIdAccepted m = false) :
    selectedMusicModelId envDefault (some m) = envDefault.getD "music_v1" := by
  unfold musicModelIdAccepted at hm
  unfold selectedMusicModelId
  dsimp only
  rw [if_neg]
  intro hc
  rw [hm] at hc
  exact Bool.false_ne_true hc

theorem compose_requests_model_id (env : ComposeEnv) (args : ComposeArgs)
    (respond : Nat → UpstreamResponse) :
    ∀ q ∈ (composeSongWithElevenMusic env args respond).requests,
      q.model_id = selectedMusicModelId env.musicModelIdEnv args.model_id := by
  unfold composeSongWithElevenMusic
  dsimp only
  split
  · simp
  · split
    · simp
    · split
      · intro q hq
        simp only [List.mem_singleton] at hq
        subst hq; rfl
      · split
        · split
          · split
            · intro q hq
              simp only [List.mem_cons, List.mem_singleton, List.not_mem_nil,
                or_false] at hq
              rcases hq with h | h <;> (subst h; rfl)
            · intro q hq
              simp only [List.mem_cons, List.mem_singleton, List.not_mem_nil,
                or_false] at hq
              rcases hq with h | h <;> (subst h; rfl)
          · intro q hq
            simp only [List.mem_singleton] at hq
            subst hq; rfl
        · intro q hq
          simp only [List.mem_singleton] at hq
          subst hq; rfl

/-- C10: the caller-supplied model id is used for the upstream music
request only if, after trimming, it is non-empty and starts
case-insensitively with `music`; any other supplied id is silently
replaced by the default music model id (the environment value, or
`music_v1` when unset), with no error reported: the call behaves exactly
as if no model id had been supplied. -/
theorem C10_model_id_gate :
    (∀ (envDefault : Option String) (m : String),
        musicModelIdAccepted m = true →
        selectedMusicModelId envDefault (some m) = jsTrim m) ∧
    (∀ (envDefault : Option String) (m : String),
        musicModelIdAccepted m = false →
        selectedMusicModelId envDefault (some m) = envDefault.getD "music_v1") ∧
    (∀ envDefault : Option String,
        selectedMusicModelId envDefault none = envDefault.getD "music_v1") ∧
    (∀ (env : ComposeEnv) (args : ComposeArgs) (respond : Nat → UpstreamResponse),
        ∀ q ∈ (composeSongWithElevenMusic env args respond).requests,
          q.model_id = selectedMusicModelId env.musicModelIdEnv args.model_id) ∧
    (∀ (env : ComposeEnv) (args : ComposeArgs)
        (respond : Nat → UpstreamResponse) (m : String),
        musicModelIdAccepted m = false →
        composeSongWithElevenMusic env { args with model_id := some m } respond =
          composeSongWithElevenMusic env { args with model_id := none } respond) := by
  refine ⟨selectedMusicModelId_accepted, selectedMusicModelId_rejected, ?_,
    compose_requests_model_id, ?_⟩
  · intro envDefault; rfl
  · intro env args respond m hm
    have h : selectedMusicModelId env.musicModelIdEnv (some m) =
        selectedMusicModelId env.musicModelIdEnv none :=
      (selectedMusicModelId_rejected env.musicModelIdEnv m hm).trans rfl
    unfold composeSongWithElevenMusic
    simp only [h]

/-- Witness for C10 at concrete inputs: a trimmed `music`-prefixed id is
used verbatim, any other id falls back to the default. -/
theorem C10_model_id_gate_witness :
    selectedMusicModelId (some "music_v2") (some " MusicXL ") = "MusicXL" ∧
    selectedMusicModelId (some "music_v2") (some "eleven_multilingual_v2") =
      "music_v2" ∧
    composeSongWithElevenMusic ⟨some "k", none, none⟩
        { blueprint := emptyBlueprint, prompt := some "hello world",
          model_id := some "eleven_multilingual_v2", music_length_ms := none,
          force_instrumental := none, output_format := none }
        (fun _ => ⟨200, "", none⟩) =
      composeSongWithElevenMusic ⟨some "k", none, none⟩
        { blueprint := emptyBlueprint, prompt := some "hello world",
          model_id := none, music_length_ms := none,
          force_instrumental := none, output_format := none }
        (fun _ => ⟨200, "", none⟩) := by
  refine ⟨?_, ?_, ?_⟩
  · have h := C10_model_id_gate.1 (some "music_v2") " MusicXL " (by decide)
    rw [h]; decide
  · exact C10_model_id_gate.2.1 (some "music_v2") "eleven_multilingual_v2"
      (by decide)
  · exact C10_model_id_gate.2.2.2.2 ⟨some "k", none, none⟩
      { blueprint := emptyBlueprint, prompt := some "hello world",
        model_id := some "eleven_multilingual_v2", music_length_ms := none,
        force_instrumental := none, output_format := none }
      (fun _ => ⟨200, "", none⟩) "eleven_multilingual_v2" (by decide)

/-! ## C6: the bearer-token gate -/

/-- C6: with a configured (non-empty) bearer token, a request whose
`Authorization` header is absent is rejected before any session or tool
logic runs (state unchanged, unauthorized response), and the gate passes
exactly those requests presenting a header whose `Bearer` capture equals
the configured token; with no token configured the gate is a no-op that
forwards every request unchanged to the session logic, rather than an
accept-any-token rule. -/
theorem C6_bearer_gate :
    (∀ requiredToken : Option String, requiredToken.getD "" = "" →
        ∀ hv, isAuthorizedRequest requiredToken hv = true) ∧
    (∀ requiredToken : Option String, requiredToken.getD "" = "" →
        ∀ hv st freshId freshServer req,
          handleMcpRequest requiredToken hv st freshId freshServer req =
            handleStatefulRequest st freshId freshServer req) ∧
    (∀ token : String, token ≠ "" →
        ∀ hv, isAuthorizedRequest (some token) hv = true ↔
          ∃ h, getHeaderValue hv = some h ∧ bearerCapture h = some token) ∧
    (∀ token : String, token ≠ "" →
        ∀ st freshId freshServer req,
          handleMcpRequest (some token) .missing st freshId freshServer req =
            (st, .unauthorized)) ∧
    (∀ requiredToken hv st freshId freshServer req,
        isAuthorizedRequest requiredToken hv = false →
        handleMcpRequest requiredToken hv st freshId freshServer req =
          (st, .unauthorized)) := by
  refine ⟨?_, ?_, ?_, ?_, ?_⟩
  · intro requiredToken htok hv
    unfold isAuthorizedRequest
    rw [if_pos htok]
  · intro requiredToken htok hv st freshId freshServer req
    unfold handleMcpRequest isAuthorizedRequest
    rw [if_pos htok]
    rfl
  · intro token htok hv
    unfold isAuthorizedRequest
    rw [if_neg (by simpa using htok)]
    cases hgv : getHeaderValue hv with
    | none =>
        constructor
        · intro hfalse; exact absurd hfalse (by simp)
        · rintro ⟨h, hh, -⟩; exact Option.noConfusion hh
    | some h =>
        dsimp only
        constructor
        · intro hc
          cases hbc : bearerCapture h with
          | none =>
              rw [hbc] at hc
              exact absurd hc (by simp)
          | some captured =>
              rw [hbc] at hc
              simp only [Option.getD_some, decide_eq_true_eq] at hc
              exact ⟨h, rfl, by rw [hbc, hc]⟩
        · rintro ⟨h2, hh2, hc2⟩
          injection hh2 with hh2e
          subst hh2e
          rw [hc2]
          simp
  · intro token htok st freshId freshServer req
    have hauth : isAuthorizedRequest (some token) .missing = false := by
      unfold isAuthorizedRequest
      rw [if_neg (by simpa using htok)]
      rfl
    unfold handleMcpRequest
    rw [hauth]
    rfl
  · intro requiredToken hv st freshId freshServer req hauth
    unfold handleMcpRequest
    rw [hauth]
    rfl

/-- Witness for C6 at concrete inputs. -/
theorem C6_bearer_gate_witness :
    isAuthorizedRequest none (.single "Bearer whatever") = true ∧
    handleMcpRequest (some "secret") .missing emptySessionState "s1" 0
      ⟨"POST", none, true⟩ = (emptySessionState, .unauthorized) ∧
    (isAuthorizedRequest (some "secret") (.single "Bearer secret") = true ↔
      ∃ h, getHeaderValue (.single "Bearer secret") = some h ∧
        bearerCapture h = some "secret") :=
  ⟨C6_bearer_gate.1 none rfl (.single "Bearer whatever"),
   C6_bearer_gate.2.2.2.1 "secret" (by decide) emptySessionState "s1" 0
     ⟨"POST", none, true⟩,
   C6_bearer_gate.2.2.1 "secret" (by decide) (.single "Bearer secret")⟩

/-! ## C9: stateless-mode initialization deduplication -/

/-- States reachable while no initialization failure has occurred:
either nothing was ever constructed, or exactly one construction
happened and both references are set. -/
def statelessGood (s : StatelessState) : Prop :=
  (s.constructions = 0 ∧ s.serverSet = false ∧ s.transportSet = false ∧
    s.initInFlight = false) ∨
  (s.constructions = 1 ∧ s.serverSet = true ∧ s.transportSet = true)

theorem statelessStep_mono (s : StatelessState) (e : StatelessEvent) :
    s.constructions ≤ (statelessStep s e).constructions := by
  rcases s with ⟨sv, tr, inf, n⟩
  cases e with
  | arrive =>
      simp only [statelessStep]
      split
      · exact Nat.le_refl n
      · split
        · exact Nat.le_succ n
        · exact Nat.le_refl n
  | initDone success =>
      simp only [statelessStep]
      split
      · split <;> exact Nat.le_refl n
      · exact Nat.le_refl n

theorem statelessFold_mono (l : List StatelessEvent) (s : StatelessState) :
    s.constructions ≤ (l.foldl statelessStep s).constructions := by
  induction l generalizing s with
  | nil => exact Nat.le_refl _
  | cons e t ih =>
      exact Nat.le_trans (statelessStep_mono s e) (ih (statelessStep s e))

theorem statelessStep_good (s : StatelessState) (e : StatelessEvent)
    (he : e ≠ .initDone false) (hs : statelessGood s) :
    statelessGood (statelessStep s e) := by
  rcases s with ⟨sv, tr, inf, n⟩
  cases e with
  | arrive =>
      rcases hs with ⟨hn, hsv, htr, hinf⟩ | ⟨hn, hsv, htr⟩
      · subst hn; subst hsv; subst htr; subst hinf
        simp [statelessStep, statelessGood]
      · subst hn; subst hsv; subst htr
        cases inf <;> simp [statelessStep, statelessGood]
  | initDone success =>
      cases success
      · exact absurd rfl he
      · rcases hs with ⟨hn, hsv, htr, hinf⟩ | ⟨hn, hsv, htr⟩
        · subst hn; subst hsv; subst htr; subst hinf
          simp [statelessStep, statelessGood]
        · subst hn; subst hsv; subst htr
          cases inf <;> simp [statelessStep, statelessGood]

theorem statelessFold_good (l : List StatelessEvent) (s : StatelessState)
    (h : ∀ e ∈ l, e ≠ .initDone false) (hs : statelessGood s) :
    statelessGood (l.foldl statelessStep s) := by
  induction l generalizing s with
  | nil => exact hs
  | cons e t ih =>
      exact ih (statelessStep s e) (fun x hx => h x (List.mem_cons_of_mem e hx))
        (statelessStep_good s e (h e (List.mem_cons_self e t)) hs)

theorem statelessStep_arrive_one (s : StatelessState) (hs : statelessGood s) :
    (statelessStep s .arrive).constructions = 1 := by
  rcases s with ⟨sv, tr, inf, n⟩
  rcases hs with ⟨hn, hsv, htr, hinf⟩ | ⟨hn, hsv, htr⟩
  · subst hn; subst hsv; subst htr; subst hinf
    simp [statelessStep]
  · subst hn; subst hsv; subst htr
    cases inf <;> simp [statelessStep]

/-- C9: in stateless mode the shared executor is lazily constructed on
the first request (no construction before any arrival), initialization
races are deduplicated (from the initial state, along any event trace
without an initialization failure, at most one construction occurs, and
exactly one once some request has arrived), an arrival while an
initialization is in flight awaits it without constructing anything, and
after a completed initialization further arrivals reuse the executor
unchanged. -/
theorem C9_stateless_dedup :
    (∀ evs : List StatelessEvent, (∀ e ∈ evs, e ≠ .initDone false) →
        (statelessRun evs).constructions ≤ 1) ∧
    (∀ evs : List StatelessEvent, (∀ e ∈ evs, e ≠ .initDone false) →
        .arrive ∈ evs → (statelessRun evs).constructions = 1) ∧
    (∀ evs : List StatelessEvent, .arrive ∉ evs →
        (statelessRun evs).constructions = 0) ∧
    (∀ s : StatelessState, s.initInFlight = true →
        statelessStep s .arrive = s) ∧
    (∀ s : StatelessState, s.serverSet = true → s.transportSet = true →
        s.initInFlight = false → statelessStep s .arrive = s) := by
  refine ⟨?_, ?_, ?_, ?_, ?_⟩
  · intro evs h
    have hg := statelessFold_good evs statelessInit h (Or.inl ⟨rfl, rfl, rfl, rfl⟩)
    rcases hg with ⟨hn, -⟩ | ⟨hn, -⟩ <;> (unfold statelessRun; omega)
  · intro evs h hmem
    obtain ⟨l₁, l₂, rfl⟩ := List.append_of_mem hmem
    have h₁ : ∀ e ∈ l₁, e ≠ .initDone false :=
      fun e he => h e (by simp [he])
    have h₂ : ∀ e ∈ l₂, e ≠ .initDone false :=
      fun e he => h e (by simp [he])
    have hg₁ : statelessGood (statelessRun l₁) :=
      statelessFold_good l₁ statelessInit h₁ (Or.inl ⟨rfl, rfl, rfl, rfl⟩)
    have hone : (statelessStep (statelessRun l₁) .arrive).constructions = 1 :=
      statelessStep_arrive_one _ hg₁
    have hgood : statelessGood
        (l₂.foldl statelessStep (statelessStep (statelessRun l₁) .arrive)) := by
      refine statelessFold_good l₂ _ h₂ ?_
      exact statelessStep_good _ _ (by simp) hg₁
    have hmono := statelessFold_mono l₂ (statelessStep (statelessRun l₁) .arrive)
    rw [hone] at hmono
    have hrun : statelessRun (l₁ ++ StatelessEvent.arrive :: l₂) =
        l₂.foldl statelessStep (statelessStep (statelessRun l₁) .arrive) := by
      rw [statelessRun, statelessRun, List.foldl_append, List.foldl_cons]
    rw [hrun]
    rcases hgood with ⟨hn, -⟩ | ⟨hn, -⟩ <;> omega
  · intro evs hnm
    have : ∀ s : StatelessState, s.initInFlight = false →
        (evs.foldl statelessStep s).constructions = s.constructions ∧
        (evs.foldl statelessStep s).initInFlight = false := by
      induction evs with
      | nil => exact fun s hsf => ⟨rfl, hsf⟩
      | cons e t ih =>
          intro s hsf
          have hne : e ≠ .arrive := fun he => hnm (he ▸ List.mem_cons_self e t)
          have hnm' : StatelessEvent.arrive ∉ t :=
            fun ht => hnm (List.mem_cons_of_mem e ht)
          cases e with
          | arrive => exact absurd rfl hne
          | initDone success =>
              have hstep : statelessStep s (.initDone success) = s := by
                rcases s with ⟨sv, tr, inf, n⟩
                simp only at hsf
                subst hsf
                simp [statelessStep]
              rw [List.foldl_cons, hstep]
              exact (by
                have := ih hnm' s hsf
                exact this)
    exact (this statelessInit rfl).1
  · intro s hs
    rcases s with ⟨sv, tr, inf, n⟩
    simp only at hs
    subst hs
    simp [statelessStep]
  · intro s hsv htr hinf
    rcases s with ⟨sv, tr, inf, n⟩
    simp only at hsv htr hinf
    subst hsv; subst htr; subst hinf
    simp [statelessStep]

/-- Witness for C9 on a concrete trace: two simultaneous first requests,
a completed initialization, then a further request. -/
theorem C9_stateless_dedup_witness :
    (statelessRun [.arrive, .arrive, .initDone true, .arrive]).constructions
        ≤ 1 ∧
    (statelessRun [.arrive, .arrive, .initDone true, .arrive]).constructions
        = 1 ∧
    (statelessRun [.initDone true]).constructions = 0 ∧
    statelessStep ⟨true, true, true, 1⟩ .arrive = ⟨true, true, true, 1⟩ ∧
    statelessStep ⟨true, true, false, 1⟩ .arrive = ⟨true, true, false, 1⟩ :=
  ⟨C9_stateless_dedup.1 [.arrive, .arrive, .initDone true, .arrive]
      (by decide),
   C9_stateless_dedup.2.1 [.arrive, .arrive, .initDone true, .arrive]
      (by decide) (by decide),
   C9_stateless_dedup.2.2.1 [.initDone true] (by decide),
   C9_stateless_dedup.2.2.2.1 ⟨true, true, true, 1⟩ rfl,
   C9_stateless_dedup.2.2.2.2 ⟨true, true, false, 1⟩ rfl rfl rfl⟩

/-! ## C7: stateful session lifecycle -/

theorem lookup_filter_ne {α : Type} (l : List (String × α)) (sid : String) :
    (l.filter (fun e => e.1 ≠ sid)).lookup sid = none := by
  induction l with
  | nil => rfl
  | cons e t ih =>
      by_cases h : e.1 = sid
      · simpa [List.filter, h] using ih
      · have hbeq : (sid == e.1) = false := by
          simpa [beq_iff_eq] using fun hc => h hc.symm
        simpa [List.filter, h, List.lookup, hbeq] using ih

theorem sidTruthy_some (o : Option String) (h : sidTruthy o = true) :
    ∃ sid, o = some sid ∧ sid ≠ "" := by
  cases o with
  | none => exact absurd h (by simp [sidTruthy])
  | some s => exact ⟨s, rfl, by simpa [sidTruthy] using h⟩

theorem handleStateful_sid_lookup (st : SessionState) (freshId : String)
    (freshServer : Nat) (req : SessionRequest) (sid : String)
    (hsid : req.sessionId = some sid) (hne : sid ≠ "") :
    handleStatefulRequest st freshId freshServer req =
      match st.transports.lookup sid with
      | some .streamable => (st, .handledBy sid)
      | some .sse => (st, .transportMismatch)
      | none => (st, .noValidSession) := by
  unfold handleStatefulRequest
  have htr : sidTruthy req.sessionId = true := by simp [sidTruthy, hsid, hne]
  rw [if_pos htr, hsid]

theorem handleStateful_no_sid (st : SessionState) (freshId : String)
    (freshServer : Nat) (req : SessionRequest)
    (h : sidTruthy req.sessionId = false) :
    handleStatefulRequest st freshId freshServer req =
      if req.method = "POST" && req.isInitialize then
        (⟨(freshId, .streamable) :: st.transports,
          (freshId, freshServer) :: st.sessionServers⟩, .newSession freshId)
      else (st, .noValidSession) := by
  unfold handleStatefulRequest
  rw [if_neg (by simp [h])]

/-- C7: in stateful HTTP mode a new session is created only by a POST
initialize request carrying no (truthy) session identifier; a request
carrying an identifier that is unknown, or that maps to a session bound
to the legacy streaming transport kind, is rejected with the protocol
error and leaves the state unchanged; releasing a session removes both
map entries for its identifier, so any subsequent request carrying that
identifier fails with the `No valid MCP session` protocol error. -/
theorem C7_session_lifecycle :
    (∀ (st : SessionState) (freshId : String) (freshServer : Nat)
        (req : SessionRequest),
        (handleStatefulRequest st freshId freshServer req).1 ≠ st →
        req.method = "POST" ∧ req.isInitialize = true ∧
          sidTruthy req.sessionId = false) ∧
    (∀ (st : SessionState) (freshId : String) (freshServer : Nat)
        (req : SessionRequest) (sid : String),
        req.sessionId = some sid → sid ≠ "" →
        st.transports.lookup sid = none →
        handleStatefulRequest st freshId freshServer req =
          (st, .noValidSession)) ∧
    (∀ (st : SessionState) (freshId : String) (freshServer : Nat)
        (req : SessionRequest) (sid : String),
        req.sessionId = some sid → sid ≠ "" →
        st.transports.lookup sid = some .sse →
        handleStatefulRequest st freshId freshServer req =
          (st, .transportMismatch)) ∧
    (∀ (st : SessionState) (sid : String),
        (releaseSessionReferences st sid).transports.lookup sid = none ∧
        (releaseSessionReferences st sid).sessionServers.lookup sid = none) ∧
    (∀ (st : SessionState) (freshId : String) (freshServer : Nat)
        (req : SessionRequest) (sid : String),
        req.sessionId = some sid → sid ≠ "" →
        handleStatefulRequest (releaseSessionReferences st sid) freshId
          freshServer req =
          (releaseSessionReferences st sid, .noValidSession)) := by
  have hrel : ∀ (st : SessionState) (sid : String),
      (releaseSessionReferences st sid).transports.lookup sid = none ∧
      (releaseSessionReferences st sid).sessionServers.lookup sid = none :=
    fun st sid => ⟨lookup_filter_ne st.transports sid,
      lookup_filter_ne st.sessionServers sid⟩
  have hunknown : ∀ (st : SessionState) (freshId : String)
      (freshServer : Nat) (req : SessionRequest) (sid : String),
      req.sessionId = some sid → sid ≠ "" →
      st.transports.lookup sid = none →
      handleStatefulRequest st freshId freshServer req =
        (st, .noValidSession) := by
    intro st freshId freshServer req sid hsid hne hl
    rw [handleStateful_sid_lookup st freshId freshServer req sid hsid hne, hl]
  refine ⟨?_, hunknown, ?_, hrel, ?_⟩
  · intro st freshId freshServer req hne
    by_cases htr : sidTruthy req.sessionId = true
    · obtain ⟨sid, hsid, hne2⟩ := sidTruthy_some req.sessionId htr
      rw [handleStateful_sid_lookup st freshId freshServer req sid hsid hne2]
        at hne
      exfalso
      cases hl : st.transports.lookup sid with
      | none => rw [hl] at hne; exact hne rfl
      | some k => cases k <;> (rw [hl] at hne; exact hne rfl)
    · have htr2 : sidTruthy req.sessionId = false := by
        simpa using htr
      rw [handleStateful_no_sid st freshId freshServer req htr2] at hne
      by_cases hpi : (req.method = "POST" && req.isInitialize) = true
      · simp only [Bool.and_eq_true, decide_eq_true_eq] at hpi
        exact ⟨hpi.1, hpi.2, htr2⟩
      · rw [if_neg (by simpa using hpi)] at hne
        exact absurd rfl hne
  · intro st freshId freshServer req sid hsid hne hl
    rw [handleStateful_sid_lookup st freshId freshServer req sid hsid hne, hl]
  · intro st freshId freshServer req sid hsid hne
    exact hunknown (releaseSessionReferences st sid) freshId freshServer req
      sid hsid hne (hrel st sid).1

/-- Witness for C7 on a concrete state: a one-session state whose
session is released, then polled again with the released identifier. -/
theorem C7_session_lifecycle_witness :
    ((releaseSessionReferences ⟨[("s1", .streamable)], [("s1", 7)]⟩
        "s1").transports.lookup "s1" = none ∧
      (releaseSessionReferences ⟨[("s1", .streamable)], [("s1", 7)]⟩
        "s1").sessionServers.lookup "s1" = none) ∧
    handleStatefulRequest (releaseSessionReferences
        ⟨[("s1", .streamable)], [("s1", 7)]⟩ "s1") "s2" 8
        ⟨"POST", some "s1", false⟩ =
      (releaseSessionReferences ⟨[("s1", .streamable)], [("s1", 7)]⟩ "s1",
        .noValidSession) ∧
    handleStatefulRequest ⟨[("s1", .sse)], [("s1", 7)]⟩ "s2" 8
        ⟨"POST", some "s1", false⟩ =
      (⟨[("s1", .sse)], [("s1", 7)]⟩, .transportMismatch) :=
  ⟨C7_session_lifecycle.2.2.2.1 ⟨[("s1", .streamable)], [("s1", 7)]⟩ "s1",
   C7_session_lifecycle.2.2.2.2 ⟨[("s1", .streamable)], [("s1", 7)]⟩ "s2" 8
     ⟨"POST", some "s1", false⟩ "s1" rfl (by decide),
   C7_session_lifecycle.2.2.1 ⟨[("s1", .sse)], [("s1", 7)]⟩ "s2" 8
     ⟨"POST", some "s1", false⟩ "s1" rfl (by decide) (by decide)⟩

/-! ## C8: the poll loop -/

/-- A status endpoint that always reports a pending job. -/
def pendingStatusResponse : StatusResponse :=
  ⟨200, "", .obj [("status", .str "PENDING")]⟩

/-- Concrete oracle used by the C8 witness. -/
def momentOracleW : MomentOracle :=
  ⟨⟨200, "", none⟩, true, ⟨200, "", none⟩, some "job1",
    fun _ => pendingStatusResponse⟩

/-- Error-entry rendering as the claim literally states it: the location
pointer, with the empty string denoting the document root, paired with
the message. -/
def claimedEntryFormat (e : AjvError) : String :=
  e.instancePath ++ ": " ++ e.message.getD "validation error"

/-- A document carrying every field the modelled schema requires. -/
def completeBlueprint : Blueprint :=
  ⟨some "bp-1", some "pop", some 120, none, some "4/4", none, none, none,
    some []⟩

/-- C4 counterexample: on a document missing required root fields the
failure envelope is produced, but its entries render the document root
as the string `/` (mapped by `formatAjvErrors` from the validator's
empty-string root pointer), not as the empty string the claim
describes. -/
theorem C4_counterexample_root_location :
    (validate_blueprint (schemaValidate blueprintRequiredFields)
        emptyBlueprint).ok = false ∧
    (schemaValidate blueprintRequiredFields emptyBlueprint).2.head? =
      some ⟨"", some "must have required property id"⟩ ∧
    (validate_blueprint (schemaValidate blueprintRequiredFields)
        emptyBlueprint).errors.head? =
      some "/: must have required property id" ∧
    (validate_blueprint (schemaValidate blueprintRequiredFields)
        emptyBlueprint).errors ≠
      (schemaValidate blueprintRequiredFields emptyBlueprint).2.map
        claimedEntryFormat := by
  refine ⟨by decide, by decide, by decide, by decide⟩

/-- C4 (amended): a document satisfying the modelled schema yields the
success envelope with an empty error list; a document missing a
required field yields the failure envelope with a non-empty error list
whose entries pair a location pointer with a message, every violation
in this case pointing at the document root — reported by the validator
as the empty pointer and rendered in the envelope as `/`. -/
theorem C4_validate_blueprint_envelopes :
    (∀ (reqd : List String) (bp : Blueprint),
        (schemaValidate reqd bp).1 = true →
        validate_blueprint (schemaValidate reqd) bp =
          ⟨true, []⟩) ∧
    (∀ (reqd : List String) (bp : Blueprint) (f : String),
        f ∈ reqd → fieldPresent bp f = false →
        (validate_blueprint (schemaValidate reqd) bp).ok = false ∧
        (validate_blueprint (schemaValidate reqd) bp).errors ≠ [] ∧
        (validate_blueprint (schemaValidate reqd) bp).errors =
          (schemaValidate reqd bp).2.map
            (fun e => (if e.instancePath = "" then "/" else e.instancePath)
              ++ ": " ++ e.message.getD "validation error") ∧
        (∀ e ∈ (schemaValidate reqd bp).2, e.instancePath = "")) := by
  constructor
  · intro reqd bp h
    have herrs : (reqd.filter (fun g => !fieldPresent bp g)).map
        (fun f => AjvError.mk "" (some ("must have required property " ++ f)))
          = [] := by
      have : (schemaValidate reqd bp).1 =
          ((reqd.filter (fun g => !fieldPresent bp g)).map
            (fun f => AjvError.mk ""
              (some ("must have required property " ++ f)))).isEmpty := rfl
      rw [this] at h
      exact List.isEmpty_iff.mp h
    unfold validate_blueprint schemaValidate
    rw [herrs]
    rfl
  · intro reqd bp f hf hnp
    have hmem : f ∈ reqd.filter (fun g => !fieldPresent bp g) :=
      List.mem_filter.mpr ⟨hf, by simp [hnp]⟩
    obtain ⟨a, t, hat⟩ :=
      List.exists_cons_of_ne_nil (List.ne_nil_of_mem hmem)
    have herrs : (schemaValidate reqd bp).2 =
        (a :: t).map (fun f => AjvError.mk ""
          (some ("must have required property " ++ f))) := by
      unfold schemaValidate
      rw [hat]
    have hvalid : (schemaValidate reqd bp).1 = false := by
      have : (schemaValidate reqd bp).1 = ((schemaValidate reqd bp).2).isEmpty :=
        rfl
      rw [this, herrs]
      rfl
    have hfmt : formatAjvErrors (some (schemaValidate reqd bp).2) =
        (schemaValidate reqd bp).2.map
          (fun e => (if e.instancePath = "" then "/" else e.instancePath)
            ++ ": " ++ e.message.getD "validation error") := by
      rw [herrs]
      simp [formatAjvErrors]
    have henv : validate_blueprint (schemaValidate reqd) bp =
        ⟨false, formatAjvErrors (some (schemaValidate reqd bp).2)⟩ := by
      unfold validate_blueprint
      dsimp only
      rw [hvalid]
      rfl
    refine ⟨by rw [henv], ?_, by rw [henv, hfmt], ?_⟩
    · rw [henv, hfmt, herrs]
      simp
    · intro e he
      rw [herrs] at he
      obtain ⟨g, -, hg⟩ := List.mem_map.mp he
      rw [← hg]

/-- Witness for C4 (amended) at concrete documents. -/
theorem C4_validate_blueprint_envelopes_witness :
    validate_blueprint (schemaValidate blueprintRequiredFields)
        completeBlueprint = ⟨true, []⟩ ∧
    ((validate_blueprint (schemaValidate blueprintRequiredFields)
        emptyBlueprint).ok = false ∧
      (validate_blueprint (schemaValidate blueprintRequiredFields)
        emptyBlueprint).errors ≠ [] ∧
      (validate_blueprint (schemaValidate blueprintRequiredFields)
        emptyBlueprint).errors =
        (schemaValidate blueprintRequiredFields emptyBlueprint).2.map
          (fun e => (if e.instancePath = "" then "/" else e.instancePath)
            ++ ": " ++ e.message.getD "validation error") ∧
      (∀ e ∈ (schemaValidate blueprintRequiredFields emptyBlueprint).2,
        e.instancePath = "")) :=
  ⟨C4_validate_blueprint_envelopes.1 blueprintRequiredFields
      completeBlueprint (by decide),
   C4_validate_blueprint_envelopes.2 blueprintRequiredFields
      emptyBlueprint "id" (by decide) (by decide)⟩

/-! ## C5: blueprint validation before network access -/

/-- Concrete `create_moment` arguments carrying a schema-invalid
blueprint serialization. -/
def momentArgsInvalidBp : MomentArgs :=
  ⟨none, some "a.mp3", none, some emptyBlueprint, none, none, some 5000,
    some 5000⟩

/-- C5 counterexample: `create_moment` consumes a blueprint
(`blueprint_json`) but never runs it through the validator — with a
document failing the schema it still issues the upload request (and
subsequent polls) to the network. -/
theorem C5_counterexample_create_moment_skips_validation :
    (schemaValidate blueprintRequiredFields emptyBlueprint).1 = false ∧
    (create_moment none momentArgsInvalidBp momentOracleW).requests ≠ [] ∧
    MomentRequest.createMoment "http://127.0.0.1:8000"
        (some emptyBlueprint) none ∈
      (create_moment none momentArgsInvalidBp momentOracleW).requests := by
  refine ⟨by decide, by decide, by decide⟩

/-- C5 (amended): the tools that consume a structured blueprint argument
(`create_song` always, `synthesize_preview` when a blueprint is
supplied) run it through the validator first, and a failing blueprint
short-circuits with the failure envelope carrying the validator error
list, no request being issued to any network client; `create_moment`
forwards its `blueprint_json` to the pipeline without validation. -/
theorem C5_validation_short_circuit :
    (∀ (validator : Blueprint → Bool × List AjvError) (env : ComposeEnv)
        (args : ComposeArgs) (respond : Nat → UpstreamResponse),
        (validator args.blueprint).1 = false →
        create_song validator env args respond =
          ⟨[], .validationFailed
            (formatAjvErrors (some (validator args.blueprint).2))⟩) ∧
    (∀ (validator : Blueprint → Bool × List AjvError) (env : PreviewEnv)
        (args : PreviewArgs) (respond : Nat → UpstreamResponse)
        (bp : Blueprint),
        args.blueprint = some bp → (validator bp).1 = false →
        synthesize_preview validator env args respond =
          ⟨[], .validationFailed
            (formatAjvErrors (some (validator bp).2))⟩) := by
  constructor
  · intro validator env args respond h
    unfold create_song
    dsimp only
    rw [h]
    rfl
  · intro validator env args respond bp hbp h
    unfold synthesize_preview
    rw [hbp]
    dsimp only
    rw [h]
    rfl

/-- Witness for C5 (amended) at a concrete invalid blueprint. -/
theorem C5_validation_short_circuit_witness :
    create_song (schemaValidate blueprintRequiredFields)
        ⟨some "k", none, none⟩
        ⟨emptyBlueprint, some "hello", none, none, none, none⟩
        (fun _ => ⟨200, "", none⟩) =
      ⟨[], .validationFailed (formatAjvErrors
        (some (schemaValidate blueprintRequiredFields emptyBlueprint).2))⟩ ∧
    synthesize_preview (schemaValidate blueprintRequiredFields)
        ⟨some "k", some "v1", "eleven_multilingual_v2"⟩
        ⟨some "hello", some emptyBlueprint, none, none, none, none, none,
          none⟩
        (fun _ => ⟨200, "", none⟩) =
      ⟨[], .validationFailed (formatAjvErrors
        (some (schemaValidate blueprintRequiredFields emptyBlueprint).2))⟩ :=
  ⟨C5_validation_short_circuit.1 (schemaValidate blueprintRequiredFields)
      ⟨some "k", none, none⟩
      ⟨emptyBlueprint, some "hello", none, none, none, none⟩
      (fun _ => ⟨200, "", none⟩) (by decide),
   C5_validation_short_circuit.2 (schemaValidate blueprintRequiredFields)
      ⟨some "k", some "v1", "eleven_multilingual_v2"⟩
      ⟨some "hello", some emptyBlueprint, none, none, none, none, none,
        none⟩
      (fun _ => ⟨200, "", none⟩) emptyBlueprint rfl (by decide)⟩

/-! ## C1: the moderation retry policy -/

/-- The replacement prompt derived for a moderation retry: the upstream
suggestion when present, otherwise the policy-safe fallback. -/
def retryPromptOf (args : ComposeArgs) (r : UpstreamResponse) : Option String :=
  (extractPromptSuggestion r.bodyJson).orElse
    (fun _ => buildPolicySafePromptFromBlueprint args.blueprint
      (args.force_instrumental.getD false))

/-- The `bad_prompt` classification of a response body (lines 636-637),
evaluated in the failure branch. -/
def isBadPromptOf (r : UpstreamResponse) : Bool :=
  decide (r.status = 400) &&
    decide (extractErrorStatus r.bodyJson = some "bad_prompt")

/-- The request body `composeSongWithElevenMusic` sends for a prompt. -/
def composeRequestOf (env : ComposeEnv) (args : ComposeArgs)
    (p : String) : MusicRequest :=
  ⟨p, selectedMusicModelId env.musicModelIdEnv args.model_id,
    estimateMusicLengthMs args.blueprint args.music_length_ms,
    args.force_instrumental.getD false⟩

theorem keptLines_head_nonempty (A : List Char) (hA : A.isEmpty = false)
    (rest : List (Option (List Char))) : keptLines (some A :: rest) ≠ [] := by
  unfold keptLines
  rw [List.filterMap_cons]
  simp only [id_eq]
  rw [List.filter_cons, if_pos (by rw [hA]; rfl)]
  simp

theorem buildPolicySafePrompt_isSome (bp : Blueprint) (fi : Bool) :
    ∃ s, buildPolicySafePromptFromBlueprint bp fi = some s := by
  unfold buildPolicySafePromptFromBlueprint
  dsimp only
  rw [if_neg (fun hh =>
    keptLines_head_nonempty _ (by decide) _ (List.isEmpty_iff.mp hh))]
  exact ⟨_, rfl⟩

theorem retryPromptOf_isSome (args : ComposeArgs) (r : UpstreamResponse) :
    ∃ rp, retryPromptOf args r = some rp := by
  unfold retryPromptOf
  cases hs : extractPromptSuggestion r.bodyJson with
  | some s => exact ⟨s, rfl⟩
  | none =>
      obtain ⟨s, hsafe⟩ := buildPolicySafePrompt_isSome args.blueprint
        (args.force_instrumental.getD false)
      exact ⟨s, hsafe⟩

theorem compose_first_ok (env : ComposeEnv) (args : ComposeArgs)
    (respond : Nat → UpstreamResponse) (prompt : String)
    (happ : ¬env.apiKey.getD "" = "")
    (hp : buildMusicPromptFromBlueprint args.blueprint
      (args.force_instrumental.getD false) args.prompt = some prompt)
    (hok : (respond 0).ok = true) :
    composeSongWithElevenMusic env args respond =
      ⟨[composeRequestOf env args prompt],
        .success (selectedMusicModelId env.musicModelIdEnv args.model_id)
          (estimateMusicLengthMs args.blueprint args.music_length_ms)
          (args.force_instrumental.getD false) false prompt⟩ := by
  unfold composeSongWithElevenMusic
  rw [if_neg happ]
  dsimp only
  rw [hp]
  dsimp only
  rw [hok, if_pos rfl]
  rfl

theorem compose_retry_taken (env : ComposeEnv) (args : ComposeArgs)
    (respond : Nat → UpstreamResponse) (prompt rp : String)
    (happ : ¬env.apiKey.getD "" = "")
    (hp : buildMusicPromptFromBlueprint args.blueprint
      (args.force_instrumental.getD false) args.prompt = some prompt)
    (hok0 : (respond 0).ok = false)
    (hrp : retryPromptOf args (respond 0) = some rp)
    (hguard : (isBadPromptOf (respond 0) && decide (rp ≠ "") &&
      decide (rp ≠ prompt)) = true) :
    composeSongWithElevenMusic env args respond =
      (if (respond 1).ok then
        ⟨[composeRequestOf env args prompt, composeRequestOf env args rp],
          .success (selectedMusicModelId env.musicModelIdEnv args.model_id)
            (estimateMusicLengthMs args.blueprint args.music_length_ms)
            (args.force_instrumental.getD false) true rp⟩
      else
        ⟨[composeRequestOf env args prompt, composeRequestOf env args rp],
          .retryFailed (respond 1).status (respond 1).bodyText⟩) := by
  unfold retryPromptOf at hrp
  unfold isBadPromptOf at hguard
  unfold composeSongWithElevenMusic
  rw [if_neg happ]
  dsimp only
  rw [hp]
  dsimp only
  rw [hok0]
  rw [if_neg (by decide : ¬(false = true))]
  rw [hrp]
  dsimp only
  rw [if_pos hguard]
  by_cases hok1 : (respond 1).ok = true
  · rw [hok1, if_pos rfl, if_pos rfl]; rfl
  · rw [Bool.not_eq_true] at hok1
    rw [hok1]
    rw [if_neg (by decide : ¬(false = true)),
      if_neg (by decide : ¬(false = true))]
    rfl

theorem compose_no_retry (env : ComposeEnv) (args : ComposeArgs)
    (respond : Nat → UpstreamResponse) (prompt rp : String)
    (happ : ¬env.apiKey.getD "" = "")
    (hp : buildMusicPromptFromBlueprint args.blueprint
      (args.force_instrumental.getD false) args.prompt = some prompt)
    (hok0 : (respond 0).ok = false)
    (hrp : retryPromptOf args (respond 0) = some rp)
    (hguard : (isBadPromptOf (respond 0) && decide (rp ≠ "") &&
      decide (rp ≠ prompt)) = false) :
    composeSongWithElevenMusic env args respond =
      ⟨[composeRequestOf env args prompt],
        .firstFailed (respond 0).status (respond 0).bodyText
          (extractPromptSuggestion (respond 0).bodyJson)
          (isBadPromptOf (respond 0))⟩ := by
  unfold retryPromptOf at hrp
  unfold isBadPromptOf at hguard ⊢
  unfold composeSongWithElevenMusic
  rw [if_neg happ]
  dsimp only
  rw [hp]
  dsimp only
  rw [hok0]
  rw [if_neg (by decide : ¬(false = true))]
  rw [hrp]
  dsimp only
  rw [hguard]
  rw [if_neg (by decide : ¬(false = true))]
  rfl

/-- C1 (amended): `composeSongWithElevenMusic` issues at most two
upstream requests; when an API key is configured and a prompt is
derived, a second request occurs if and only if the first response was a
moderation-class rejection (HTTP 400 with `bad_prompt` body status) AND
the derived replacement prompt — the upstream suggestion if present,
otherwise the policy-safe fallback — is non-empty and differs from the
prompt used on the first attempt; a failure on the retry is terminal and
reported with `original_prompt_rejected = true`; a non-moderation
failure on the first attempt is terminal immediately, with one request
issued and `original_prompt_rejected = false`. -/
theorem C1_retry_policy :
    (∀ (env : ComposeEnv) (args : ComposeArgs)
        (respond : Nat → UpstreamResponse),
        (composeSongWithElevenMusic env args respond).requests.length ≤ 2) ∧
    (∀ (env : ComposeEnv) (args : ComposeArgs)
        (respond : Nat → UpstreamResponse) (prompt : String),
        ¬env.apiKey.getD "" = "" →
        buildMusicPromptFromBlueprint args.blueprint
          (args.force_instrumental.getD false) args.prompt = some prompt →
        ((composeSongWithElevenMusic env args respond).requests.length = 2 ↔
          (moderationRejected (respond 0) = true ∧
            ∃ rp, retryPromptOf args (respond 0) = some rp ∧ rp ≠ "" ∧
              rp ≠ prompt))) ∧
    (∀ (env : ComposeEnv) (args : ComposeArgs)
        (respond : Nat → UpstreamResponse) (prompt rp : String),
        ¬env.apiKey.getD "" = "" →
        buildMusicPromptFromBlueprint args.blueprint
          (args.force_instrumental.getD false) args.prompt = some prompt →
        (respond 0).ok = false →
        retryPromptOf args (respond 0) = some rp →
        (isBadPromptOf (respond 0) && decide (rp ≠ "") &&
          decide (rp ≠ prompt)) = true →
        (respond 1).ok = false →
        composeSongWithElevenMusic env args respond =
          ⟨[composeRequestOf env args prompt, composeRequestOf env args rp],
            .retryFailed (respond 1).status (respond 1).bodyText⟩ ∧
        (composeSongWithElevenMusic env args
          respond).result.originalPromptRejected = some true) ∧
    (∀ (env : ComposeEnv) (args : ComposeArgs)
        (respond : Nat → UpstreamResponse) (prompt : String),
        ¬env.apiKey.getD "" = "" →
        buildMusicPromptFromBlueprint args.blueprint
          (args.force_instrumental.getD false) args.prompt = some prompt →
        (respond 0).ok = false →
        moderationRejected (respond 0) = false →
        composeSongWithElevenMusic env args respond =
          ⟨[composeRequestOf env args prompt],
            .firstFailed (respond 0).status (respond 0).bodyText
              (extractPromptSuggestion (respond 0).bodyJson) false⟩) := by
  refine ⟨?_, ?_, ?_, ?_⟩
  · intro env args respond
    unfold composeSongWithElevenMusic
    dsimp only
    split
    · simp
    · split
      · simp
      · split
        · simp
        · split
          · split
            · split <;> simp
            · simp
          · simp
  · intro env args respond prompt happ hp
    obtain ⟨rp, hrp⟩ := retryPromptOf_isSome args (respond 0)
    by_cases hok : (respond 0).ok = true
    · rw [compose_first_ok env args respond prompt happ hp hok]
      constructor
      · intro h2; exact absurd h2 (by simp)
      · rintro ⟨hmod, -⟩
        unfold moderationRejected at hmod
        rw [hok] at hmod
        exact absurd hmod (by simp)
    · rw [Bool.not_eq_true] at hok
      by_cases hguard : (isBadPromptOf (respond 0) && decide (rp ≠ "") &&
          decide (rp ≠ prompt)) = true
      · have hparts := hguard
        simp only [Bool.and_eq_true, decide_eq_true_eq] at hparts
        rw [compose_retry_taken env args respond prompt rp happ hp hok hrp
          hguard]
        constructor
        · intro _
          refine ⟨?_, rp, hrp, hparts.1.2, hparts.2⟩
          unfold moderationRejected
          rw [hok]
          simp only [Bool.not_false, Bool.true_and]
          have := hparts.1.1
          unfold isBadPromptOf at this
          exact this
        · intro _
          split <;> rfl
      · have hguard' : (isBadPromptOf (respond 0) && decide (rp ≠ "") &&
            decide (rp ≠ prompt)) = false := by
          simpa using hguard
        rw [compose_no_retry env args respond prompt rp happ hp hok hrp
          hguard']
        constructor
        · intro h2; exact absurd h2 (by simp)
        · rintro ⟨hmod, rp2, hrp2, hne, hnep⟩
          rw [hrp] at hrp2
          injection hrp2 with he
          subst he
          exfalso
          unfold moderationRejected at hmod
          rw [hok] at hmod
          simp only [Bool.not_false, Bool.true_and] at hmod
          have hbad : isBadPromptOf (respond 0) = true := by
            unfold isBadPromptOf
            exact hmod
          rw [hbad, decide_eq_true hne, decide_eq_true hnep] at hguard'
          simp at hguard'
  · intro env args respond prompt rp happ hp hok0 hrp hguard hok1
    have hc := compose_retry_taken env args respond prompt rp happ hp hok0
      hrp hguard
    rw [hok1] at hc
    simp only [Bool.false_eq_true, if_false] at hc
    refine ⟨hc, ?_⟩
    rw [hc]
    rfl
  · intro env args respond prompt happ hp hok0 hmod
    obtain ⟨rp, hrp⟩ := retryPromptOf_isSome args (respond 0)
    have hbad : isBadPromptOf (respond 0) = false := by
      unfold moderationRejected at hmod
      rw [hok0] at hmod
      simp only [Bool.not_false, Bool.true_and] at hmod
      unfold isBadPromptOf
      exact hmod
    have hguard : (isBadPromptOf (respond 0) && decide (rp ≠ "") &&
        decide (rp ≠ prompt)) = false := by
      rw [hbad]
      rfl
    have hc := compose_no_retry env args respond prompt rp happ hp hok0 hrp
      hguard
    rw [hbad] at hc
    exact hc

/-- Upstream error body of a moderation rejection whose suggested
replacement equals the prompt that was already used. -/
def echoSuggestionBody : Json :=
  .obj [("detail", .obj [("status", .str "bad_prompt"),
    ("data", .obj [("prompt_suggestion", .str "hello world")])])]

/-- C1 counterexample: a moderation-class rejection after which no
second request is issued — the upstream suggestion equals the prompt
already used, so the retry guard `retryPrompt !== promptUsed` blocks the
retry and the call ends after one request; the claim as stated (second
request iff moderation rejection) is therefore false. -/
theorem C1_counterexample_rejection_without_retry :
    moderationRejected ⟨400, "err", some echoSuggestionBody⟩ = true ∧
    (composeSongWithElevenMusic ⟨some "k", none, none⟩
        ⟨emptyBlueprint, some "hello world", none, none, none, none⟩
        (fun _ => ⟨400, "err", some echoSuggestionBody⟩)).requests.length
      = 1 ∧
    (composeSongWithElevenMusic ⟨some "k", none, none⟩
        ⟨emptyBlueprint, some "hello world", none, none, none, none⟩
        (fun _ => ⟨400, "err", some echoSuggestionBody⟩)).result =
      .firstFailed 400 "err" (some "hello world") true := by
  refine ⟨by decide, by decide, by decide⟩

/-- Concrete compose arguments for the C1 witness. -/
def composeArgsW : ComposeArgs :=
  ⟨emptyBlueprint, some "hello world", none, none, none, none⟩

/-- Moderation rejection carrying a usable replacement suggestion. -/
def usableSuggestionBody : Json :=
  .obj [("detail", .obj [("status", .str "bad_prompt"),
    ("data", .obj [("prompt_suggestion", .str "safe song")])])]

/-- Witness for C1 at concrete inputs. -/
theorem C1_retry_policy_witness :
    (composeSongWithElevenMusic ⟨some "k", none, none⟩ composeArgsW
        (fun _ => ⟨400, "err", some usableSuggestionBody⟩)).requests.length
        ≤ 2 ∧
    ((composeSongWithElevenMusic ⟨some "k", none, none⟩ composeArgsW
        (fun _ => ⟨400, "err", some usableSuggestionBody⟩)).requests.length
          = 2 ↔
      (moderationRejected
          ((fun _ : Nat => (⟨400, "err", some usableSuggestionBody⟩ :
            UpstreamResponse)) 0) = true ∧
        ∃ rp, retryPromptOf composeArgsW
            ((fun _ : Nat => (⟨400, "err", some usableSuggestionBody⟩ :
              UpstreamResponse)) 0) = some rp ∧ rp ≠ "" ∧
          rp ≠ "hello world")) ∧
    composeSongWithElevenMusic ⟨some "k", none, none⟩ composeArgsW
        (fun _ => ⟨500, "boom", none⟩) =
      ⟨[composeRequestOf ⟨some "k", none, none⟩ composeArgsW "hello world"],
        .firstFailed ((fun _ : Nat => (⟨500, "boom", none⟩ :
            UpstreamResponse)) 0).status
          ((fun _ : Nat => (⟨500, "boom", none⟩ : UpstreamResponse))
            0).bodyText
          (extractPromptSuggestion ((fun _ : Nat => (⟨500, "boom", none⟩ :
            UpstreamResponse)) 0).bodyJson) false⟩ :=
  ⟨C1_retry_policy.1 ⟨some "k", none, none⟩ composeArgsW
      (fun _ => ⟨400, "err", some usableSuggestionBody⟩),
   C1_retry_policy.2.1 ⟨some "k", none, none⟩ composeArgsW
      (fun _ => ⟨400, "err", some usableSuggestionBody⟩) "hello world"
      (by decide) (by decide),
   C1_retry_policy.2.2.2 ⟨some "k", none, none⟩ composeArgsW
      (fun _ => ⟨500, "boom", none⟩) "hello world" (by decide) (by decide)
      (by decide) (by decide)⟩

/-! ## C2: string toolkit for the policy-safe prompt -/

theorem containsSeq_nil_pat (t : List Char) : containsSeq t [] = true := by
  cases t <;> simp [containsSeq, List.isPrefixOf]

theorem isPrefixOf_mem {p t : List Char} (h : p.isPrefixOf t = true) :
    ∀ c ∈ p, c ∈ t := by
  induction p generalizing t with
  | nil => intro c hc; exact absurd hc (List.not_mem_nil c)
  | cons q ps ih =>
      cases t with
      | nil => exact absurd h (by simp [List.isPrefixOf])
      | cons x xs =>
          simp only [List.isPrefixOf, Bool.and_eq_true, beq_iff_eq] at h
          intro c hc
          rcases List.mem_cons.mp hc with hc | hc
          · exact List.mem_cons.mpr (Or.inl (hc.trans h.1))
          · exact List.mem_cons.mpr (Or.inr (ih h.2 c hc))

theorem containsSeq_mem {t p : List Char} (h : containsSeq t p = true) :
    ∀ c ∈ p, c ∈ t := by
  induction t with
  | nil =>
      intro c hc
      simp only [containsSeq, List.isEmpty_iff] at h
      subst h
      exact absurd hc (List.not_mem_nil c)
  | cons x xs ih =>
      simp only [containsSeq, Bool.or_eq_true] at h
      intro c hc
      rcases h with h | h
      · exact isPrefixOf_mem h c hc
      · exact List.mem_cons.mpr (Or.inr (ih h c hc))

/-- A pattern containing a character absent from the text never occurs. -/
theorem mem_no {t p : List Char} (c₀ : Char) (hc : c₀ ∈ p) (ht : c₀ ∉ t) :
    containsSeq t p = false := by
  by_contra h
  exact ht (containsSeq_mem (by simpa using h) c₀ hc)

/-- Prepending a character different from the pattern head preserves
absence. -/
theorem cons_no {t p : List Char} {q c : Char} (hq : p.head? = some q)
    (hne : q ≠ c) (ht : containsSeq t p = false) :
    containsSeq (c :: t) p = false := by
  cases p with
  | nil => exact absurd hq (by simp)
  | cons q2 ps =>
      simp only [List.head?_cons, Option.some.injEq] at hq
      subst hq
      simp only [containsSeq, Bool.or_eq_false_iff]
      refine ⟨?_, ht⟩
      simp only [List.isPrefixOf, Bool.and_eq_false_iff]
      left
      simpa using fun he => hne he

theorem isPrefixOf_append_weaken {p a : List Char} (b : List Char)
    (h : p.isPrefixOf a = true) : p.isPrefixOf (a ++ b) = true := by
  induction p generalizing a with
  | nil => simp [List.isPrefixOf]
  | cons q ps ih =>
      cases a with
      | nil => exact absurd h (by simp [List.isPrefixOf])
      | cons x xs =>
          simp only [List.isPrefixOf, Bool.and_eq_true] at h ⊢
          exact ⟨h.1, ih h.2⟩

theorem containsSeq_append_left {a p : List Char} (b : List Char)
    (h : containsSeq a p = true) : containsSeq (a ++ b) p = true := by
  induction a with
  | nil =>
      simp only [containsSeq, List.isEmpty_iff] at h
      subst h
      exact containsSeq_nil_pat b
  | cons x xs ih =>
      simp only [containsSeq, Bool.or_eq_true] at h ⊢
      rcases h with h | h
      · exact Or.inl (isPrefixOf_append_weaken b h)
      · exact Or.inr (ih h)

theorem containsSeq_append_right (a : List Char) {b p : List Char}
    (h : containsSeq b p = true) : containsSeq (a ++ b) p = true := by
  induction a with
  | nil => exact h
  | cons x xs ih =>
      simp only [containsSeq, Bool.or_eq_true]
      exact Or.inr ih

/-- A prefix that crosses into a separator character must contain it. -/
theorem isPrefixOf_append_sep {p a b : List Char} {c : Char} (hc : c ∉ p)
    (h : p.isPrefixOf (a ++ c :: b) = true) : p.isPrefixOf a = true := by
  induction p generalizing a with
  | nil => simp [List.isPrefixOf]
  | cons q ps ih =>
      cases a with
      | nil =>
          simp only [List.nil_append, List.isPrefixOf, Bool.and_eq_true,
            beq_iff_eq] at h
          exact absurd (h.1 ▸ List.mem_cons_self q ps) hc
      | cons x xs =>
          simp only [List.cons_append, List.isPrefixOf,
            Bool.and_eq_true] at h ⊢
          exact ⟨h.1, ih (fun hm => hc (List.mem_cons_of_mem q hm)) h.2⟩

/-- Occurrences split at a separator character absent from the
pattern. -/
theorem containsSeq_append_sep {a b p : List Char} {c : Char} (hc : c ∉ p)
    (hp : p ≠ []) (h : containsSeq (a ++ c :: b) p = true) :
    containsSeq a p = true ∨ containsSeq b p = true := by
  induction a with
  | nil =>
      simp only [List.nil_append, containsSeq, Bool.or_eq_true] at h
      rcases h with h | h
      · cases p with
        | nil => exact absurd rfl hp
        | cons q ps =>
            simp only [List.isPrefixOf, Bool.and_eq_true, beq_iff_eq] at h
            exact absurd (h.1 ▸ List.mem_cons_self q ps) hc
      · exact Or.inr h
  | cons x xs ih =>
      simp only [List.cons_append, containsSeq, Bool.or_eq_true] at h
      rcases h with h | h
      · rw [← List.cons_append] at h
        have hpre := isPrefixOf_append_sep hc h
        left
        cases p with
        | nil => exact absurd rfl hp
        | cons q ps => simp [containsSeq, Bool.or_eq_true, hpre]
      · rcases ih h with h2 | h2
        · left
          simp [containsSeq, Bool.or_eq_true, h2]
        · exact Or.inr h2

/-- Contrapositive splitting form. -/
theorem sep_no {a b p : List Char} {c : Char} (hc : c ∉ p) (hp : p ≠ [])
    (ha : containsSeq a p = false) (hb : containsSeq b p = false) :
    containsSeq (a ++ c :: b) p = false := by
  by_contra h
  rcases containsSeq_append_sep hc hp (by simpa using h) with h2 | h2
  · rw [ha] at h2; exact Bool.false_ne_true h2
  · rw [hb] at h2; exact Bool.false_ne_true h2

theorem isPrefixOf_snoc {p a : List Char} {c : Char}
    (h : p.isPrefixOf (a ++ [c]) = true) :
    p.isPrefixOf a = true ∨ p.getLast? = some c := by
  induction p generalizing a with
  | nil => exact Or.inl (by simp [List.isPrefixOf])
  | cons q ps ih =>
      cases a with
      | nil =>
          simp only [List.nil_append, List.isPrefixOf, Bool.and_eq_true,
            beq_iff_eq] at h
          have hps : ps = [] := by
            cases ps with
            | nil => rfl
            | cons r rs => exact absurd h.2 (by simp [List.isPrefixOf])
          subst hps
          exact Or.inr (by simp [h.1])
      | cons x xs =>
          simp only [List.cons_append, List.isPrefixOf,
            Bool.and_eq_true] at h
          rcases ih h.2 with h2 | h2
          · exact Or.inl (by simp [List.isPrefixOf, h.1, h2])
          · right
            cases ps with
            | nil => exact absurd h2 (by simp)
            | cons r rs => simpa using h2

theorem containsSeq_snoc {a p : List Char} {c : Char} (hp : p ≠ [])
    (h : containsSeq (a ++ [c]) p = true) :
    containsSeq a p = true ∨ p.getLast? = some c := by
  induction a with
  | nil =>
      simp only [List.nil_append, containsSeq, Bool.or_eq_true] at h
      rcases h with h | h
      · rcases isPrefixOf_snoc (a := [])
          (by simpa using h : p.isPrefixOf ([] ++ [c]) = true) with h2 | h2
        · cases p with
          | nil => exact absurd rfl hp
          | cons q ps => exact absurd h2 (by simp [List.isPrefixOf])
        · exact Or.inr h2
      · simp only [containsSeq, List.isEmpty_iff] at h
        exact absurd h hp
  | cons x xs ih =>
      simp only [List.cons_append, containsSeq, Bool.or_eq_true] at h
      rcases h with h | h
      · rw [← List.cons_append] at h
        rcases isPrefixOf_snoc h with h2 | h2
        · left
          simp [containsSeq, h2]
        · exact Or.inr h2
      · rcases ih h with h2 | h2
        · left
          simp [containsSeq, h2]
        · exact Or.inr h2

/-- Appending a final character different from the pattern tail
preserves absence. -/
theorem snoc_no {a p : List Char} {c : Char} (hp : p ≠ [])
    (hl : p.getLast? ≠ some c) (ha : containsSeq a p = false) :
    containsSeq (a ++ [c]) p = false := by
  by_contra hcon
  rcases containsSeq_snoc hp (by simpa using hcon) with h2 | h2
  · rw [ha] at h2
    exact Bool.false_ne_true h2
  · exact hl h2

theorem containsSeq_dropWhile_of {f : Char → Bool} {l p : List Char}
    (h : containsSeq (l.dropWhile f) p = true) : containsSeq l p = true := by
  rw [← List.takeWhile_append_dropWhile (p := f) (l := l)]
  exact containsSeq_append_right _ h

theorem containsSeq_trim_of {l p : List Char}
    (h : containsSeq (jsTrimL l) p = true) : containsSeq l p = true := by
  unfold jsTrimL at h
  have hsplit : l.dropWhile isJsSpace =
      ((l.dropWhile isJsSpace).reverse.dropWhile isJsSpace).reverse ++
        ((l.dropWhile isJsSpace).reverse.takeWhile isJsSpace).reverse := by
    calc l.dropWhile isJsSpace
        = (l.dropWhile isJsSpace).reverse.reverse :=
          (List.reverse_reverse _).symm
      _ = ((l.dropWhile isJsSpace).reverse.takeWhile isJsSpace ++
            (l.dropWhile isJsSpace).reverse.dropWhile isJsSpace).reverse :=
          by rw [List.takeWhile_append_dropWhile]
      _ = _ := by rw [List.reverse_append]
  have h2 : containsSeq (l.dropWhile isJsSpace) p = true := by
    rw [hsplit]
    exact containsSeq_append_left _ h
  exact containsSeq_dropWhile_of h2

/-- Contrapositive form for trimmed strings. -/
theorem trim_no {l p : List Char} (h : containsSeq l p = false) :
    containsSeq (jsTrimL l) p = false := by
  by_contra hcon
  rw [containsSeq_trim_of (by simpa using hcon)] at h
  exact absurd h (by decide)

def decimalChars : List Char :=
  ['-', '.', '0', '1', '2', '3', '4', '5', '6', '7', '8', '9']

theorem digChar_mem (d : Nat) : digChar d ∈ decimalChars := by
  unfold digChar
  split <;> decide

theorem natCharsAux_mem (fuel : Nat) :
    ∀ (n : Nat), ∀ c ∈ natCharsAux fuel n, c ∈ decimalChars := by
  induction fuel with
  | zero => intro n c hc; exact absurd hc (List.not_mem_nil c)
  | succ m ih =>
      intro n c hc
      unfold natCharsAux at hc
      by_cases hn : n < 10
      · rw [if_pos hn] at hc
        simp only [List.mem_singleton] at hc
        subst hc
        exact digChar_mem n
      · rw [if_neg hn] at hc
        rcases List.mem_append.mp hc with hc | hc
        · exact ih _ c hc
        · simp only [List.mem_singleton] at hc
          subst hc
          exact digChar_mem _

theorem natChars_mem (n : Nat) : ∀ c ∈ natChars n, c ∈ decimalChars :=
  natCharsAux_mem (n + 1) n

theorem qChars_mem (q : ℚ) : ∀ c ∈ qChars q, c ∈ decimalChars := by
  intro c hc
  unfold qChars at hc
  rcases List.mem_append.mp hc with hc | hc
  · rcases List.mem_append.mp hc with hc | hc
    · by_cases hs : q.num < 0
      · rw [if_pos hs] at hc
        simp only [List.mem_singleton] at hc
        subst hc
        decide
      · rw [if_neg hs] at hc
        exact absurd hc (List.not_mem_nil c)
    · exact natChars_mem _ c hc
  · by_cases hd : q.den = 1
    · rw [if_pos hd] at hc
      exact absurd hc (List.not_mem_nil c)
    · rw [if_neg hd] at hc
      rcases List.mem_cons.mp hc with hc | hc
      · subst hc; decide
      · exact natChars_mem _ c hc

theorem qChars_no_i (q : ℚ) : 'i' ∉ qChars q := fun h =>
  absurd (qChars_mem q 'i' h) (by decide)

theorem padTwoChars_mem (n : Nat) : ∀ c ∈ padTwoChars n, c ∈ decimalChars := by
  intro c hc
  unfold padTwoChars at hc
  rcases List.mem_cons.mp hc with hc | hc
  · subst hc; exact digChar_mem _
  · simp only [List.mem_singleton] at hc
    subst hc
    exact digChar_mem _

theorem toFixed2Chars_mem (e : ℚ) :
    ∀ c ∈ toFixed2Chars e, c ∈ decimalChars := by
  intro c hc
  unfold toFixed2Chars at hc
  rcases List.mem_append.mp hc with hc | hc
  · rcases List.mem_append.mp hc with hc | hc
    · split at hc
      · simp only [List.mem_singleton] at hc
        subst hc
        decide
      · exact absurd hc (List.not_mem_nil c)
    · exact natChars_mem _ c hc
  · rcases List.mem_cons.mp hc with hc | hc
    · subst hc; decide
    · exact padTwoChars_mem _ c hc

theorem toFixed2Chars_no_i (e : ℚ) : 'i' ∉ toFixed2Chars e := fun h =>
  absurd (toFixed2Chars_mem e 'i' h) (by decide)

theorem head_mem {p : List Char} {q : Char} (h : p.head? = some q) :
    q ∈ p := by
  cases p with
  | nil => exact absurd h (by simp)
  | cons x xs =>
      simp only [List.head?_cons, Option.some.injEq] at h
      subst h
      exact List.mem_cons_self x xs

theorem containsSeq_nil_no {p : List Char} (hp : p ≠ []) :
    containsSeq [] p = false := by
  cases p with
  | nil => exact absurd rfl hp
  | cons q ps => rfl

/-- A `label: mid` segment contains no occurrence when neither part
does: the colon separates, and the following space cannot start the
pattern. -/
theorem labeled_mid_no (label mid : List Char) {p : List Char}
    (hp : p ≠ []) (hhead : p.head? = some 'i') (hcolon : ':' ∉ p)
    (hlabel : containsSeq label p = false)
    (hmid : containsSeq mid p = false) :
    containsSeq (label ++ ':' :: ' ' :: mid) p = false :=
  sep_no hcolon hp hlabel (cons_no hhead (by decide) hmid)

theorem joinCommaSpace_no {ls : List (List Char)} {p : List Char}
    (hp : p ≠ []) (hhead : p.head? = some 'i') (hcomma : ',' ∉ p)
    (hall : ∀ l ∈ ls, containsSeq l p = false) :
    containsSeq (joinCommaSpace ls) p = false := by
  induction ls with
  | nil => exact containsSeq_nil_no hp
  | cons l ls ih =>
      cases ls with
      | nil => exact hall l (List.mem_cons_self l [])
      | cons l2 ls2 =>
          show containsSeq (l ++ ',' :: ' ' ::
            joinCommaSpace (l2 :: ls2)) p = false
          refine sep_no hcomma hp (hall l (List.mem_cons_self l _)) ?_
          refine cons_no hhead (by decide) ?_
          exact ih (fun x hx => hall x (List.mem_cons_of_mem l hx))

theorem joinBlankLine_no {ls : List (List Char)} {p : List Char}
    (hp : p ≠ []) (hhead : p.head? = some 'i') (hnl : '\n' ∉ p)
    (hall : ∀ l ∈ ls, containsSeq l p = false) :
    containsSeq (joinBlankLine ls) p = false := by
  induction ls with
  | nil => exact containsSeq_nil_no hp
  | cons l ls ih =>
      cases ls with
      | nil => exact hall l (List.mem_cons_self l [])
      | cons l2 ls2 =>
          show containsSeq (l ++ '\n' :: '\n' ::
            joinBlankLine (l2 :: ls2)) p = false
          refine sep_no hnl hp (hall l (List.mem_cons_self l _)) ?_
          refine cons_no hhead (by decide) ?_
          exact ih (fun x hx => hall x (List.mem_cons_of_mem l hx))

theorem keptLines_mem {L : List (Option (List Char))} {l : List Char}
    (h : l ∈ keptLines L) : some l ∈ L := by
  unfold keptLines at h
  have h1 := (List.mem_filter.mp h).1
  rcases List.mem_filterMap.mp h1 with ⟨o, ho, hol⟩
  cases o with
  | none => exact absurd hol (by simp)
  | some x =>
      have hx : x = l := by simpa using hol
      subst hx
      exact ho

theorem sectionSummaryPiece_no (sec : BlueprintSection) {p : List Char}
    (hp : p ≠ []) (hhead : p.head? = some 'i') (hcomma : ',' ∉ p)
    (hparen : '(' ∉ p) (hlp : p.getLast? ≠ some ')')
    (hls : p.getLast? ≠ some ' ')
    (hsec : containsSeq "section".data p = false)
    (hbars : containsSeq "bars unspecified".data p = false)
    (heflex : containsSeq "energy flexible".data p = false)
    (hname : ∀ s, sec.name = some s → containsSeq s.data p = false) :
    containsSeq (sectionSummaryPiece sec) p = false := by
  have hi : 'i' ∈ p := head_mem hhead
  unfold sectionSummaryPiece
  dsimp only
  have hnm : containsSeq (match sec.name with
      | some n => let t := jsTrimL n.data
                  if t = [] then "section".data else t
      | none => "section".data) p = false := by
    cases hn : sec.name with
    | none => exact hsec
    | some n =>
        dsimp only
        by_cases ht : jsTrimL n.data = []
        · rw [if_pos ht]; exact hsec
        · rw [if_neg ht]; exact trim_no (hname n hn)
  have hbarsAny : containsSeq (match sec.bars with
      | some b => qChars b ++ " bars".data
      | none => "bars unspecified".data) p = false := by
    cases hb : sec.bars with
    | none => exact hbars
    | some b =>
        refine mem_no 'i' hi ?_
        intro hm
        rcases List.mem_append.mp hm with hm | hm
        · exact qChars_no_i b hm
        · exact absurd hm (by decide)
  have henAny : containsSeq (match sec.energy with
      | some e => "energy ".data ++ toFixed2Chars e
      | none => "energy flexible".data) p = false := by
    cases he : sec.energy with
    | none => exact heflex
    | some e =>
        refine mem_no 'i' hi ?_
        intro hm
        rcases List.mem_append.mp hm with hm | hm
        · exact absurd hm (by decide)
        · exact toFixed2Chars_no_i e hm
  generalize hnmv : (match sec.name with
      | some n => let t := jsTrimL n.data
                  if t = [] then "section".data else t
      | none => "section".data) = nm at hnm ⊢
  generalize hbv : (match sec.bars with
      | some b => qChars b ++ " bars".data
      | none => "bars unspecified".data) = bars at hbarsAny ⊢
  generalize hev : (match sec.energy with
      | some e => "energy ".data ++ toFixed2Chars e
      | none => "energy flexible".data) = energy at henAny ⊢
  have e1 : (((nm ++ " (".data) ++ bars) ++ ", ".data) ++ energy =
      ((nm ++ [' ']) ++ '(' :: bars) ++ ',' :: ' ' :: energy := by
    simp only [List.append_assoc, List.cons_append, List.singleton_append,
      List.nil_append]
  show containsSeq (((((nm ++ " (".data) ++ bars) ++ ", ".data) ++ energy)
    ++ [')']) p = false
  refine snoc_no hp hlp ?_
  rw [e1]
  refine sep_no hcomma hp ?_ (cons_no hhead (by decide) henAny)
  exact sep_no hparen hp (snoc_no hp hls hnm) hbarsAny

/-- Generic assembly property: no prompt line of the policy-safe
builder introduces an occurrence of a pattern absent from all its
variable ingredients, for any pattern starting with `i` and free of the
structural delimiter characters. -/
theorem policySafePrompt_no_pattern (bp : Blueprint) (fi : Bool)
    {p : List Char}
    (hp : p ≠ []) (hhead : p.head? = some 'i')
    (hcolon : ':' ∉ p) (hnl : '\n' ∉ p) (hcomma : ',' ∉ p)
    (hparen : '(' ∉ p)
    (hld : p.getLast? ≠ some '.') (hlp : p.getLast? ≠ some ')')
    (hls : p.getLast? ≠ some ' ')
    (hc0 : containsSeq "Compose a complete, studio-quality song with instrumentation and sung vocals.".data p = false)
    (hc7 : containsSeq "Keep it original and avoid imitating or referencing any specific named artist.".data p = false)
    (hc8a : containsSeq "Make this fully instrumental (no vocals).".data p = false)
    (hc8b : containsSeq "Include clear lead vocals.".data p = false)
    (hc9 : containsSeq "Use the following lyrics as the vocal topline and keep wording close:".data p = false)
    (hlblStyle : containsSeq "Style/genre".data p = false)
    (hlblTempo : containsSeq "Tempo".data p = false)
    (hlblKey : containsSeq "Key center".data p = false)
    (hlblTs : containsSeq "Time signature".data p = false)
    (hlblMood : containsSeq "Mood".data p = false)
    (hlblSec : containsSeq "Song sections".data p = false)
    (hsec : containsSeq "section".data p = false)
    (hbars : containsSeq "bars unspecified".data p = false)
    (heflex : containsSeq "energy flexible".data p = false)
    (hstyle : containsSeq
      ((sanitizeStyleDescriptor bp.style).getD defaultSafeStyle).data p
        = false)
    (hkey : ∀ s, bp.key = some s → containsSeq s.data p = false)
    (hts : ∀ s, bp.time_signature = some s →
      containsSeq s.data p = false)
    (hmood : ∀ s, bp.mood = some s → containsSeq s.data p = false)
    (hlyr : ∀ s, bp.lyrics = some s → containsSeq s.data p = false)
    (hnames : ∀ sec ∈ bp.sections.getD [], ∀ s, sec.name = some s →
      containsSeq s.data p = false) :
    ∀ pr, buildPolicySafePromptFromBlueprint bp fi = some pr →
      containsSeq pr.data p = false := by
  intro pr hpr
  have hi : 'i' ∈ p := head_mem hhead
  have hsum : containsSeq (sectionSummaryOf bp) p = false := by
    unfold sectionSummaryOf
    refine joinCommaSpace_no hp hhead hcomma ?_
    intro l hl
    rcases List.mem_map.mp hl with ⟨sec, hsecmem, hsecl⟩
    rw [← hsecl]
    exact sectionSummaryPiece_no sec hp hhead hcomma hparen hlp hls hsec
      hbars heflex (hnames sec hsecmem)
  unfold buildPolicySafePromptFromBlueprint at hpr
  dsimp only at hpr
  by_cases hemp : (keptLines [
      some "Compose a complete, studio-quality song with instrumentation and sung vocals.".data,
      some ("Style/genre: ".data ++
        ((sanitizeStyleDescriptor bp.style).getD defaultSafeStyle).data ++
        ['.']),
      optNumLine bp.tempo_bpm
        (fun q => "Tempo: ".data ++ qChars q ++ " BPM.".data),
      optStringLine bp.key (fun s => "Key center: ".data ++ s.data ++ ['.']),
      optStringLine bp.time_signature
        (fun s => "Time signature: ".data ++ s.data ++ ['.']),
      optStringLine bp.mood (fun s => "Mood: ".data ++ s.data ++ ['.']),
      (if (sectionSummaryOf bp).isEmpty then none
       else some ("Song sections: ".data ++ sectionSummaryOf bp ++ ['.'])),
      some "Keep it original and avoid imitating or referencing any specific named artist.".data,
      some (if fi then "Make this fully instrumental (no vocals).".data
            else "Include clear lead vocals.".data),
      optStringLine bp.lyrics (fun _ =>
        "Use the following lyrics as the vocal topline and keep wording close:".data),
      (bp.lyrics.map (fun s => jsTrimL s.data))]).isEmpty = true
  · rw [if_pos hemp] at hpr
    exact absurd hpr (by simp)
  · rw [if_neg hemp] at hpr
    injection hpr with hpr
    subst hpr
    refine joinBlankLine_no hp hhead hnl ?_
    intro l hl
    have hmem := keptLines_mem hl
    simp only [List.mem_cons, List.not_mem_nil, or_false] at hmem
    rcases hmem with h|h|h|h|h|h|h|h|h|h|h
    · rw [show l = _ from (Option.some.injEq _ _).mp h]
      exact hc0
    · rw [show l = _ from (Option.some.injEq _ _).mp h]
      refine snoc_no hp hld ?_
      exact labeled_mid_no "Style/genre".data _ hp hhead hcolon hlblStyle
        hstyle
    · cases htq : bp.tempo_bpm with
      | none => rw [htq] at h; exact absurd h (by simp [optNumLine])
      | some q =>
          rw [htq] at h
          unfold optNumLine at h
          dsimp only at h
          by_cases hq0 : q = 0
          · rw [if_pos hq0] at h; exact absurd h (by simp)
          · rw [if_neg hq0] at h
            rw [show l = _ from (Option.some.injEq _ _).mp h]
            refine labeled_mid_no "Tempo".data
              (qChars q ++ " BPM.".data) hp hhead hcolon hlblTempo ?_
            refine mem_no 'i' hi ?_
            intro hm
            rcases List.mem_append.mp hm with hm | hm
            · exact qChars_no_i q hm
            · exact absurd hm (by decide)
    · cases hk : bp.key with
      | none => rw [hk] at h; exact absurd h (by simp [optStringLine])
      | some s =>
          rw [hk] at h
          unfold optStringLine at h
          dsimp only at h
          by_cases hs0 : s = ""
          · rw [if_pos hs0] at h; exact absurd h (by simp)
          · rw [if_neg hs0] at h
            rw [show l = _ from (Option.some.injEq _ _).mp h]
            refine snoc_no hp hld ?_
            exact labeled_mid_no "Key center".data _ hp hhead hcolon
              hlblKey (hkey s hk)
    · cases hk : bp.time_signature with
      | none => rw [hk] at h; exact absurd h (by simp [optStringLine])
      | some s =>
          rw [hk] at h
          unfold optStringLine at h
          dsimp only at h
          by_cases hs0 : s = ""
          · rw [if_pos hs0] at h; exact absurd h (by simp)
          · rw [if_neg hs0] at h
            rw [show l = _ from (Option.some.injEq _ _).mp h]
            refine snoc_no hp hld ?_
            exact labeled_mid_no "Time signature".data _ hp hhead hcolon
              hlblTs (hts s hk)
    · cases hk : bp.mood with
      | none => rw [hk] at h; exact absurd h (by simp [optStringLine])
      | some s =>
          rw [hk] at h
          unfold optStringLine at h
          dsimp only at h
          by_cases hs0 : s = ""
          · rw [if_pos hs0] at h; exact absurd h (by simp)
          · rw [if_neg hs0] at h
            rw [show l = _ from (Option.some.injEq _ _).mp h]
            refine snoc_no hp hld ?_
            exact labeled_mid_no "Mood".data _ hp hhead hcolon hlblMood
              (hmood s hk)
    · by_cases hse : (sectionSummaryOf bp).isEmpty = true
      · rw [if_pos hse] at h; exact absurd h (by simp)
      · rw [if_neg hse] at h
        rw [show l = _ from (Option.some.injEq _ _).mp h]
        refine snoc_no hp hld ?_
        exact labeled_mid_no "Song sections".data _ hp hhead hcolon
          hlblSec hsum
    · rw [show l = _ from (Option.some.injEq _ _).mp h]
      exact hc7
    · rw [show l = _ from (Option.some.injEq _ _).mp h]
      cases fi
      · exact hc8b
      · exact hc8a
    · cases hk : bp.lyrics with
      | none => rw [hk] at h; exact absurd h (by simp [optStringLine])
      | some s =>
          rw [hk] at h
          unfold optStringLine at h
          dsimp only at h
          by_cases hs0 : s = ""
          · rw [if_pos hs0] at h; exact absurd h (by simp)
          · rw [if_neg hs0] at h
            rw [show l = _ from (Option.some.injEq _ _).mp h]
            exact hc9
    · cases hk : bp.lyrics with
      | none => rw [hk] at h; exact absurd h (by simp)
      | some s =>
          rw [hk] at h
          dsimp only [Option.map] at h
          rw [show l = _ from (Option.some.injEq _ _).mp h]
          exact trim_no (hlyr s hk)

/-- Freedom from both attribution phrases. -/
def phraseFree (s : String) : Prop :=
  containsSeq s.data "inspired by".data = false ∧
  containsSeq s.data "in the style of".data = false

/-- Blueprint whose style defeats the sanitizer: the word-boundary
anchor `\b` of the removal regex does not match inside `xinspired`, so
the attribution phrase survives sanitization. -/
def styleGapBlueprint : Blueprint :=
  ⟨none, some "xinspired by Adele", none, none, none, none, none, none,
    none⟩

/-- C2 counterexample: for the blueprint whose style descriptor is
`xinspired by Adele`, the policy-safe fallback prompt (built with no
upstream suggestion available) contains the substring `inspired by`:
the sanitizer removes only word-boundary-delimited occurrences, so this
one passes through into the `Style/genre` line. -/
theorem C2_counterexample_sanitizer_gap :
    sanitizeStyleDescriptor (some "xinspired by Adele") =
      some "xinspired by Adele" ∧
    (buildPolicySafePromptFromBlueprint styleGapBlueprint false).isSome
      = true ∧
    containsSeq ((buildPolicySafePromptFromBlueprint styleGapBlueprint
        false).getD "").data "inspired by".data = true := by
  refine ⟨by decide, by decide, by decide⟩

set_option maxRecDepth 40000 in
/-- C2 (amended): the policy-safe fallback prompt contains neither
`inspired by` nor `in the style of` provided no prompt ingredient
carries these substrings into it: the sanitized style descriptor (or
the built-in default when the style is absent), the key, time
signature, mood, lyrics and section names must all be free of them.
The sanitizer itself removes only word-boundary-delimited, single-space
occurrences from the style descriptor (e.g. `xinspired by ...`
survives), and the other ingredients are never sanitized, which is what
the counterexample forces the claim to assume. -/
theorem C2_policy_safe_prompt (bp : Blueprint) (fi : Bool)
    (hstyle : phraseFree
      ((sanitizeStyleDescriptor bp.style).getD defaultSafeStyle))
    (hkey : ∀ s, bp.key = some s → phraseFree s)
    (hts : ∀ s, bp.time_signature = some s → phraseFree s)
    (hmood : ∀ s, bp.mood = some s → phraseFree s)
    (hlyr : ∀ s, bp.lyrics = some s → phraseFree s)
    (hnames : ∀ sec ∈ bp.sections.getD [], ∀ s, sec.name = some s →
      phraseFree s) :
    ∀ pr, buildPolicySafePromptFromBlueprint bp fi = some pr →
      phraseFree pr := by
  intro pr hpr
  constructor
  · exact policySafePrompt_no_pattern bp fi (p := "inspired by".data)
      (by decide) (by decide) (by decide) (by decide) (by decide)
      (by decide) (by decide) (by decide) (by decide) (by decide)
      (by decide) (by decide) (by decide) (by decide) (by decide)
      (by decide) (by decide) (by decide) (by decide) (by decide)
      (by decide) (by decide) (by decide) hstyle.1
      (fun s hs => (hkey s hs).1) (fun s hs => (hts s hs).1)
      (fun s hs => (hmood s hs).1) (fun s hs => (hlyr s hs).1)
      (fun sec hsec s hs => (hnames sec hsec s hs).1) pr hpr
  · exact policySafePrompt_no_pattern bp fi (p := "in the style of".data)
      (by decide) (by decide) (by decide) (by decide) (by decide)
      (by decide) (by decide) (by decide) (by decide) (by decide)
      (by decide) (by decide) (by decide) (by decide) (by decide)
      (by decide) (by decide) (by decide) (by decide) (by decide)
      (by decide) (by decide) (by decide) hstyle.2
      (fun s hs => (hkey s hs).2) (fun s hs => (hts s hs).2)
      (fun s hs => (hmood s hs).2) (fun s hs => (hlyr s hs).2)
      (fun sec hsec s hs => (hnames sec hsec s hs).2) pr hpr

/-- Blueprint exercising every prompt ingredient for the C2 witness. -/
def promptWitnessBlueprint : Blueprint :=
  ⟨none, some "dreamy synthwave", some 96, some "C minor", some "4/4",
    some "hopeful", some "la la la", none,
    some [⟨some "verse", some 16, none, none⟩]⟩

set_option maxRecDepth 40000 in
/-- Witness for C2 (amended) at a concrete blueprint. -/
theorem C2_policy_safe_prompt_witness :
    phraseFree ((buildPolicySafePromptFromBlueprint promptWitnessBlueprint
      false).getD "") := by
  have hsome : buildPolicySafePromptFromBlueprint promptWitnessBlueprint
      false = some ((buildPolicySafePromptFromBlueprint
        promptWitnessBlueprint false).getD "") := by decide
  exact C2_policy_safe_prompt promptWitnessBlueprint false
    ⟨by decide, by decide⟩
    (fun s hs => by
      injection hs with h
      subst h
      exact ⟨by decide, by decide⟩)
    (fun s hs => by
      injection hs with h
      subst h
      exact ⟨by decide, by decide⟩)
    (fun s hs => by
      injection hs with h
      subst h
      exact ⟨by decide, by decide⟩)
    (fun s hs => by
      injection hs with h
      subst h
      exact ⟨by decide, by decide⟩)
    (fun sec hsec s hs => by
      have hv : sec = ⟨some "verse", some 16, none, none⟩ := by
        simpa [promptWitnessBlueprint] using hsec
      subst hv
      injection hs with h
      subst h
      exact ⟨by decide, by decide⟩)
    _ hsome

end MusicTools
